import Mathlib

/-!
# go-astibob: ability keys, ability lifecycle, registration and dispatch

A shallow embedding of the parts of `ability.go`, `brain.go`, `bob.go`,
`server_clients.go` and of the `brain` package (`ability.go`, `brain.go`,
`websocket.go`) that the statements below are about.

Conventions of the embedding:

* a Go `string` is a Lean `String`, read as its sequence of runes;
* a Go `error` value is an `Option`, `none` being `nil`;
* a Go map is an association list, with `none` for the nil map;
* calls that leave the function (writes on a connection, log lines, calls to
  the lifecycle controller, goroutines that are started) are recorded, in
  program order, in a list of effects that the function returns;
* a run-time panic is an explicit outcome;
* a loop that need not end (the wait loop of `Close`, the loop of `dial`) is
  run for a number of passes, the fuel, and what the environment answers in
  each pass is an argument of the function.
-/


set_option linter.dupNamespace false

/-! ## Go values shared by the two packages -/

/-- A Go `error` that is not nil, as far as the code tells errors apart:
`context.Canceled`, an error made from a message (`errors.New`, `fmt.Errorf`),
or an error wrapped with a message (`errors.Wrap`, `errors.Wrapf`). The nil
error is `none : Option GoError`. -/
inductive GoError where
  | contextCanceled
  | new (msg : String)
  | wrap (cause : GoError) (msg : String)
  deriving DecidableEq, Repr

/-- Go `errors.Wrap(err, msg)` and `errors.Wrapf(err, format, ...)` of
`github.com/pkg/errors`: nil stays nil, another error is wrapped. -/
def errorsWrap (err : Option GoError) (msg : String) : Option GoError :=
  err.map (fun e => GoError.wrap e msg)

/-- A Go map with string keys: `none` is the nil map, `some l` a map that was
made, holding the entries `l`, every key at most once. -/
abbrev GoMap (V : Type) := Option (List (String × V))

namespace GoMap

/-- Go `make(map[string]V)`. -/
def make {V : Type} : GoMap V := some []

/-- The entries of a map; the nil map has none (`range` over it runs no step). -/
def entries {V : Type} (m : GoMap V) : List (String × V) := m.getD []

/-- Go `m[k]` with the comma-ok form: reading the nil map finds nothing. -/
def get {V : Type} (m : GoMap V) (k : String) : Option V :=
  (m.entries.find? (fun e => e.1 == k)).map (fun e => e.2)

/-- Writing `k ↦ v` into a list of entries: an entry with key `k` is replaced,
otherwise the entry is added. -/
def setEntry {V : Type} (k : String) (v : V) : List (String × V) → List (String × V)
  | [] => [(k, v)]
  | e :: es => if e.1 == k then (k, v) :: es else e :: setEntry k v es

/-- Go `m[k] = v`. On the nil map the assignment panics (`none`). -/
def set {V : Type} (m : GoMap V) (k : String) (v : V) : Option (GoMap V) :=
  match m with
  | none => none
  | some l => some (some (setEntry k v l))

end GoMap

/-- What running a piece of code that may panic comes to: a panic, or the end
of the code with a state and the error it returns. -/
inductive Exec (σ : Type) where
  | panic (msg : String)
  | done (s : σ) (err : Option GoError)
  deriving DecidableEq, Repr

/-- The loop `for _, a := range ... { if err = fn(a); err != nil { return } }`
over the values `l` in the order in which they are visited; `s` is the state
the callback `fn` works on (the variables it captures). -/
def forEach {α σ : Type} (fn : α → σ → Exec σ) : List α → σ → Exec σ
  | [], s => Exec.done s none
  | a :: rest, s =>
    match fn a s with
    | Exec.panic msg => Exec.panic msg
    | Exec.done s1 (some e) => Exec.done s1 (some e)
    | Exec.done s1 none => forEach fn rest s1

namespace astibob

/-! ## `ability.go` (package astibob) -/

/-- The regexp class `\w`: in the syntax of Go's `regexp` package it is the
ASCII class `[0-9A-Za-z_]`. -/
def isWordChar (c : Char) : Bool :=
  (48 ≤ c.toNat && c.toNat ≤ 57) || (65 ≤ c.toNat && c.toNat ≤ 90) ||
    (97 ≤ c.toNat && c.toNat ≤ 122) || c.toNat == 95

/-- The match of `[^\w]+` that starts at the head of the text is greedy: what is
left of the text after the longest run of non-word runes. -/
def skipNonWord (s : List Char) : List Char :=
  s.dropWhile (fun d => !isWordChar d)

/-- Go `regexpAbilityKey.ReplaceAllString(src, repl)` for
`regexpAbilityKey = regexp.MustCompile("[^\\w]+")` and a replacement without
`$`: the text is scanned from the left; where no match starts (a word rune) the
rune is copied, where a match starts the replacement is written once and the
scan goes on after the longest match. -/
def regexpAbilityKey_ReplaceAllString (repl : List Char) : List Char → List Char
  | [] => []
  | c :: cs =>
    if isWordChar c then c :: regexpAbilityKey_ReplaceAllString repl cs
    else repl ++ regexpAbilityKey_ReplaceAllString repl (skipNonWord cs)
termination_by s => s.length
decreasing_by
  · simp
  · have hle : ∀ l : List Char, (skipNonWord l).length ≤ l.length := by
      intro l
      unfold skipNonWord
      induction l with
      | nil => simp
      | cons d ds ih =>
        rw [List.dropWhile_cons]
        split
        · exact Nat.le_succ_of_le ih
        · exact Nat.le_refl _
    simp only [List.length_cons]
    exact Nat.lt_succ_of_le (hle cs)

/-- Go `unicode.ToLower` on one rune. Below `utf8.RuneSelf` it is the ASCII rule
(`'A'..'Z'` are moved by `'a' - 'A'`); above it the rune is looked up in the
case tables of the `unicode` package, which are not part of this repository
and are the parameter `caseTable`. -/
def unicodeToLower (caseTable : Char → Char) (c : Char) : Char :=
  if c.toNat < 128 then
    if 65 ≤ c.toNat ∧ c.toNat ≤ 90 then Char.ofNat (c.toNat + 32) else c
  else caseTable c

/-- Go `strings.ToLower` on the runes of a string. -/
def stringsToLower (caseTable : Char → Char) (s : List Char) : List Char :=
  s.map (unicodeToLower caseTable)

/-- Function `abilityKey` creates an ability key. -/
def abilityKey (caseTable : Char → Char) (name : String) : String :=
  String.mk (regexpAbilityKey_ReplaceAllString ['-'] (stringsToLower caseTable name.data))

/-- Type `ability` represents an ability as Bob knows it (the mutex is left out). -/
structure ability where
  key : String
  isOn : Bool
  name : String
  deriving DecidableEq, Repr

/-- Function `newAbility` creates a new ability. -/
def newAbility (caseTable : Char → Char) (name : String) (isOn : Bool) : ability :=
  { key := abilityKey caseTable name, isOn := isOn, name := name }

/-- The reading of the key in the words of the specification, to be compared
with `abilityKey`: the text is cut into its maximal runs of non-word runes (a
word rune is a piece of its own), every run of non-word runes is replaced by
exactly one hyphen and every word rune is kept in place. -/
def collapseNonWordRuns (s : List Char) : List Char :=
  ((s.splitBy (fun a b => !isWordChar a && !isWordChar b)).map
    (fun run => if run.all (fun d => !isWordChar d) then ['-'] else run)).flatten

/-- The characters of a normalized key: a lowercase ASCII letter, an ASCII
digit, an underscore (95) or a hyphen (45). -/
def isKeyChar (c : Char) : Bool :=
  (97 ≤ c.toNat && c.toNat ≤ 122) || (48 ≤ c.toNat && c.toNat ≤ 57) ||
    c.toNat == 95 || c.toNat == 45

/-! ## `brain.go` (package astibob) -/

/-- Type `brain` is a brain as Bob knows it (the mutex is left out). -/
structure brain where
  a : GoMap ability
  name : String
  deriving DecidableEq, Repr

/-- Function `newBrain` creates a new brain. -/
def newBrain (name : String) : brain :=
  { a := GoMap.make, name := name }

/-- Function `ability` returns a specific ability based on its name. -/
def brain.ability (b : brain) (name : String) : Option ability :=
  b.a.get name

/-- Function `abilities` loops through abilities and executes a function on each of
them. If an error is returned by the function, the loop is stopped. -/
def brain.abilities {σ : Type} (b : brain) (fn : astibob.ability → σ → Exec σ) (s : σ) : Exec σ :=
  forEach fn (b.a.entries.map (fun e => e.2)) s

/-- Modelled from the spec: the Brains Registry (type `brains`, whose file is
not among the sources) is a mapping brain-name → Brain record; its method
`brains(fn)`, called by `handleAPIBobGET`, loops through the records the way
`brain.abilities` loops through the abilities. -/
structure brains where
  b : GoMap brain
  deriving DecidableEq, Repr

/-- Modelled from the spec: `brains.brains(fn)`, see `brains`. -/
def brains.brains {σ : Type} (bs : brains) (fn : brain → σ → Exec σ) (s : σ) : Exec σ :=
  forEach fn (bs.b.entries.map (fun e => e.2)) s

/-! ## `server_clients.go` -/

/-- Type `APIAbility` represents an ability. -/
structure APIAbility where
  IsOn : Bool
  Name : String
  deriving DecidableEq, Repr

/-- Type `APIBrain` represents a brain. -/
structure APIBrain where
  Abilities : GoMap APIAbility
  Name : String
  deriving DecidableEq, Repr

/-- Type `APIBob` represents Bob. -/
structure APIBob where
  Brains : GoMap APIBrain
  deriving DecidableEq, Repr

/-- Function `APIWrite` writes API data: the data handed to the JSON encoder is the
outcome. -/
def APIWrite (data : APIBob) : Exec APIBob :=
  Exec.done data none

/-- The callback of the inner loop of `handleAPIBobGET`; its state is `bd`:
`bd.Abilities[a.key] = APIAbility{IsOn: a.isOn, Name: a.name}`. -/
def handleAPIBobGET_ability (a : ability) (bd : APIBrain) : Exec APIBrain :=
  match bd.Abilities.set a.key { IsOn := a.isOn, Name := a.name } with
  | none => Exec.panic "assignment to entry in nil map"
  | some m => Exec.done { bd with Abilities := m } none

/-- The callback of the outer loop of `handleAPIBobGET`; its state is `d`. The
variable `bd` is declared with `APIBrain{Name: b.name}`: its `Abilities` is the
nil map, and `bd` is stored nowhere when the inner loop is over. -/
def handleAPIBobGET_brain (b : brain) (d : APIBob) : Exec APIBob :=
  -- Init brain data
  let bd : APIBrain := { Abilities := none, Name := b.name }
  -- Loop through abilities
  match b.abilities handleAPIBobGET_ability bd with
  | Exec.panic msg => Exec.panic msg
  | Exec.done _ _ => Exec.done d none

/-- Function `handleAPIBobGET` returns Bob's information. -/
def handleAPIBobGET (s_brains : brains) : Exec APIBob :=
  -- Init data
  let d : APIBob := { Brains := GoMap.make }
  -- Loop through brains
  match s_brains.brains handleAPIBobGET_brain d with
  | Exec.panic msg => Exec.panic msg
  -- Write
  | Exec.done d _ => APIWrite d

/-! ## `bob.go` -/

/-- A connection `*astiws.Client` of the manager, as the dispatcher sees it:
`Write name payload` is the error returned by `c.Write(name, payload)` on this
connection (`none` when the event was written). -/
structure Client where
  Write : String → String → Option GoError

/-- What `dispatchWsEvent` does to the outside, in program order. -/
inductive Effect where
  | write (k : String) (name : String) (payload : String)
  | logError (err : Option GoError)
  deriving DecidableEq, Repr

/-- Go `(*astiws.Manager).Loop(fn)`: `fn` is called on every client of the
manager, with its key. -/
def Manager_Loop (ws : List (String × Client)) (fn : String → Client → List Effect) :
    List Effect :=
  match ws with
  | [] => []
  | e :: rest => fn e.1 e.2 ++ Manager_Loop rest fn

/-- Function `dispatchWsEvent` dispatches a websocket event. -/
def dispatchWsEvent (ws : List (String × Client)) (name : String) (payload : String) :
    List Effect :=
  Manager_Loop ws (fun k c =>
    Effect.write k name payload ::
      match c.Write name payload with
      | some err =>
        [Effect.logError (errorsWrap (some err) ("astibob: writing to ws client " ++ k ++ " failed"))]
      | none => [])

/-- The writes attempted in a trace: connection key, event name, payload. -/
def Effect.writes : List Effect → List (String × String × String)
  | [] => []
  | Effect.write k name payload :: rest => (k, name, payload) :: Effect.writes rest
  | Effect.logError _ :: rest => Effect.writes rest

end astibob

namespace astibrain

/-! ## `brain/websocket.go`: event names, payloads, the websocket wrapper -/

/-- The event name `ability.crashed`. -/
def WebsocketEventNameAbilityCrashed : String := "ability.crashed"
/-- The event name `ability.start`. -/
def WebsocketEventNameAbilityStart : String := "ability.start"
/-- The event name `ability.started`. -/
def WebsocketEventNameAbilityStarted : String := "ability.started"
/-- The event name `ability.stop`. -/
def WebsocketEventNameAbilityStop : String := "ability.stop"
/-- The event name `ability.stopped`. -/
def WebsocketEventNameAbilityStopped : String := "ability.stopped"
/-- The event name `register`. -/
def WebsocketEventNameRegister : String := "register"

/-- Type `WebSocketAbility` is a websocket ability. -/
structure WebSocketAbility where
  IsOn : Bool
  Name : String
  deriving DecidableEq, Repr

/-- Type `WebSocketRegister` is a websocket register payload. -/
structure WebSocketRegister where
  Abilities : GoMap WebSocketAbility
  Name : String
  deriving DecidableEq, Repr

/-- The values passed as `payload interface{}` to the websocket client: an
ability name or a register payload. -/
inductive Payload where
  | name (s : String)
  | register (p : WebSocketRegister)
  deriving DecidableEq, Repr

/-- What the code of the package does to the outside, in program order: a
write on the websocket client, an error line of the log, a call of the
lifecycle controller of an ability, a goroutine that is started, a call of
`Init`, the operations on the context of `Run`, a call of `Dial` or of `Read`
on the websocket client, a call of `time.Sleep` (in milliseconds), a call of
the `Close` of the runnable of an ability, and the `Close` of the websocket
client. -/
inductive Effect where
  | write (eventName : String) (payload : Payload)
  | logError (err : Option GoError)
  | toggleOn (name : String)
  | toggleOff (name : String)
  | goWait (name : String)
  | goDial (name : String)
  | init (name : String)
  | ctxDone
  | ctxCancel
  | dial (url : String)
  | read
  | sleep (ms : Nat)
  | close (name : String)
  | wsClose
  deriving DecidableEq, Repr

/-- Type `WebSocketOptions` are websocket options. -/
structure WebSocketOptions where
  URL : String
  deriving DecidableEq, Repr

/-- Type `webSocket` represents a websocket wrapper. Of the client `c` the wrapper
uses `c.Write(eventName, payload)`: the field is the error that call returns.
The registry, a pointer shared with the brain, is passed to the functions that
use it. -/
structure webSocket where
  c : String → Payload → Option GoError
  o : WebSocketOptions := { URL := "" }

/-- Function `send` sends an event and mutes the error (which is still logged). -/
def webSocket.send (ws : webSocket) (eventName : String) (payload : Payload) : List Effect :=
  Effect.write eventName payload ::
    match ws.c eventName payload with
    | some err =>
      [Effect.logError
        (errorsWrap (some err) ("astibrain: sending " ++ eventName ++ " websocket event failed"))]
    | none => []

/-! ## `brain/ability.go` -/

/-- Modelled from the spec: the Lifecycle Controller (type `toggle`, whose file
is not among the sources). Its state is Off or On; `launches` counts the tasks
it has launched and `cancels` the cancellation signals it has raised. -/
structure toggle where
  state : Bool
  launches : Nat
  cancels : Nat
  deriving DecidableEq, Repr

/-- Modelled from the spec: `newToggle`, a controller in the Off state. -/
def newToggle : toggle :=
  { state := false, launches := 0, cancels := 0 }

/-- Modelled from the spec: `isOn()` reads the current state. -/
def toggle.isOn (t : toggle) : Bool := t.state

/-- Modelled from the spec: `on()` is a no-op if already On; otherwise it
transitions to On and launches the bound task asynchronously. -/
def toggle.on (t : toggle) : toggle :=
  if t.state then t else { t with state := true, launches := t.launches + 1 }

/-- Modelled from the spec: `off()` is a no-op if already Off; otherwise it
raises the cancellation signal for the running task and does not block: the
state stays On until the completion of the task is processed. -/
def toggle.off (t : toggle) : toggle :=
  if t.state then { t with cancels := t.cancels + 1 } else t

/-- Type `AbilityOptions` represents ability options. -/
structure AbilityOptions where
  AutoStart : Bool
  deriving DecidableEq, Repr

/-- The runnable `r Runner` of an ability, as the brain uses it: `Init` is
`none` when `r` is not an `Initializer` and otherwise the error `Init()`
returns; `Close` is the same for `io.Closer`. -/
structure Runner where
  Init : Option (Option GoError)
  Close : Option (Option GoError)
  deriving DecidableEq, Repr

/-- Type `ability` represents an ability. The websocket wrapper `ws`, shared by all
the abilities of a brain, is passed to the functions that use it. -/
structure ability where
  name : String
  o : AbilityOptions
  r : Runner
  t : toggle
  deriving DecidableEq, Repr

/-- Function `newAbility` creates a new ability. -/
def newAbility (name : String) (r : Runner) (o : AbilityOptions) : ability :=
  { name := name, o := o, r := r, t := newToggle }

/-- The goroutine started by `ability.on`, from the moment `a.t.wait()` has
returned `err`. -/
def ability.on_wait (ws : webSocket) (a : ability) (err : Option GoError) : List Effect :=
  if err ≠ none ∧ err ≠ some GoError.contextCanceled then
    Effect.logError (errorsWrap err ("astibrain: " ++ a.name ++ " crashed")) ::
      ws.send WebsocketEventNameAbilityCrashed (Payload.name a.name)
  else
    ws.send WebsocketEventNameAbilityStopped (Payload.name a.name)

/-- Function `on` switches the ability on. The result is the ability after the call and
what the call did. -/
def ability.on (ws : webSocket) (a : ability) : ability × List Effect :=
  -- Ability is already on
  if a.t.isOn then (a, [])
  else
    -- Switch on, wait for the end of execution in a go routine, dispatch websocket event
    ({ a with t := a.t.on },
      Effect.toggleOn a.name :: Effect.goWait a.name ::
        ws.send WebsocketEventNameAbilityStarted (Payload.name a.name))

/-- Function `off` switches the ability off. The rest is handled through the wait
function. -/
def ability.off (a : ability) : ability × List Effect :=
  -- Ability is already off
  if !a.t.isOn then (a, [])
  else ({ a with t := a.t.off }, [Effect.toggleOff a.name])

/-- Modelled from the spec: the Agent Registry (type `abilities`, whose file
is not among the sources) is a mapping ability-name → Ability that is iterated
in registration order: the abilities in that order. -/
structure abilities where
  a : List ability
  deriving DecidableEq, Repr

/-- Modelled from the spec: `newAbilities`, the empty registry. -/
def newAbilities : abilities := { a := [] }

/-- The ability `a1` written at the place of the ability of its name: what a
write through the pointer held by the registry does. -/
def abilities.store (as : abilities) (a1 : ability) : abilities :=
  let rec go : List ability → List ability
    | [] => []
    | x :: rest => if x.name == a1.name then a1 :: rest else x :: go rest
  { a := go as.a }

/-- Modelled from the spec: `set(a)` registers the ability under its name, in
the place of an ability of that name if there is one, else after the others. -/
def abilities.set (as : abilities) (a1 : ability) : abilities :=
  if as.a.any (fun x => x.name == a1.name) then as.store a1 else { a := as.a ++ [a1] }

/-- Modelled from the spec: `ability(name)` looks the name up in the registry;
`none` is the pair `(nil, false)`. -/
def abilities.ability (as : abilities) (name : String) : Option ability :=
  as.a.find? (fun x => x.name == name)

/-- The loop of `abilities.abilities` over the abilities still to visit: the
callback may change the ability it is given (it holds a pointer) and its own
state; an error it returns stops the loop. -/
def abilities.loop {σ : Type} (fn : astibrain.ability → σ → Exec (astibrain.ability × σ)) :
    List astibrain.ability → σ → Exec (List astibrain.ability × σ)
  | [], s => Exec.done ([], s) none
  | a :: rest, s =>
    match fn a s with
    | Exec.panic msg => Exec.panic msg
    | Exec.done (a1, s1) (some e) => Exec.done (a1 :: rest, s1) (some e)
    | Exec.done (a1, s1) none =>
      match abilities.loop fn rest s1 with
      | Exec.panic msg => Exec.panic msg
      | Exec.done (rest1, s2) err => Exec.done (a1 :: rest1, s2) err

/-- Modelled from the spec: `abilities(fn)` loops through the abilities in
registration order and executes a function on each of them; if an error is
returned by the function, the loop is stopped. -/
def abilities.abilities {σ : Type} (as : abilities)
    (fn : astibrain.ability → σ → Exec (astibrain.ability × σ)) (s : σ) : Exec (abilities × σ) :=
  match abilities.loop fn as.a s with
  | Exec.panic msg => Exec.panic msg
  | Exec.done (l, s1) err => Exec.done ({ a := l }, s1) err

/-! ## `brain/websocket.go`: register and the handlers of the commands -/

/-- The callback of the loop of `sendRegister`; its state is the payload `p`:
`p.Abilities[a.name] = WebSocketAbility{IsOn: a.t.isOn(), Name: a.name}`. -/
def webSocket.sendRegister_fn (a : ability) (p : WebSocketRegister) :
    Exec (ability × WebSocketRegister) :=
  match p.Abilities.set a.name { IsOn := a.t.isOn, Name := a.name } with
  | none => Exec.panic "assignment to entry in nil map"
  | some m => Exec.done (a, { p with Abilities := m }) none

/-- The first two steps of `sendRegister`: create the payload, loop through the
abilities. -/
def webSocket.sendRegister_payload (as : abilities) (name : String) :
    Exec (abilities × WebSocketRegister) :=
  -- Create payload
  let p : WebSocketRegister := { Abilities := GoMap.make, Name := name }
  -- Loop through abilities
  as.abilities webSocket.sendRegister_fn p

/-- Function `sendRegister` sends a register event. -/
def webSocket.sendRegister (ws : webSocket) (as : abilities) (name : String) :
    Exec (abilities × List Effect) :=
  match webSocket.sendRegister_payload as name with
  | Exec.panic msg => Exec.panic msg
  | Exec.done (as1, p) _ =>
    -- Write
    Exec.done (as1, [Effect.write WebsocketEventNameRegister (Payload.register p)])
      (errorsWrap (ws.c WebsocketEventNameRegister (Payload.register p))
        "astibrain: sending register event failed")

/-- A method with the receiver `a *ability` that reads `a.t` first, called
through the result of a lookup: on the nil pointer the read panics. -/
def ability.viaPointer (a : Option ability) (method : ability → ability × List Effect)
    (as : abilities) : Exec (abilities × List Effect) :=
  match a with
  | none => Exec.panic "invalid memory address or nil pointer dereference"
  | some a1 => Exec.done (as.store (method a1).1, (method a1).2) none

/-- Function `handleAbilityStart` handles the websocket ability.start event.
`unmarshal` is `json.Unmarshal(payload, &name)` for a string `name`: the error,
or the name that was decoded. -/
def webSocket.handleAbilityStart (ws : webSocket) (unmarshal : String → Except GoError String)
    (as : abilities) (payload : String) : Exec (abilities × List Effect) :=
  -- Decode payload
  match unmarshal payload with
  | Except.error e =>
    Exec.done (as, [])
      (errorsWrap (some e) "astibrain: json unmarshaling ability.start payload failed")
  | Except.ok name =>
    -- Retrieve ability
    let a := as.ability name
    let _err : Option GoError :=
      if a.isNone then some (GoError.new ("astibrain: unknown ability " ++ name)) else none
    -- Start ability, return nil
    ability.viaPointer a (ability.on ws) as

/-- Function `handleAbilityStop` handles the websocket ability.stop event. -/
def webSocket.handleAbilityStop (unmarshal : String → Except GoError String)
    (as : abilities) (payload : String) : Exec (abilities × List Effect) :=
  -- Decode payload
  match unmarshal payload with
  | Except.error e =>
    Exec.done (as, [])
      (errorsWrap (some e) "astibrain: json unmarshaling ability.stop payload failed")
  | Except.ok name =>
    -- Retrieve ability
    let a := as.ability name
    let _err : Option GoError :=
      if a.isNone then some (GoError.new ("astibrain: unknown ability " ++ name)) else none
    -- Stop ability, return nil
    ability.viaPointer a ability.off as

/-- The constant `sleepError = 5 * time.Second` of `dial`, in milliseconds. -/
def sleepError : Nat := 5 * 1000

/-- What the environment answers during one pass of the loop of `dial`:
`ctxErr` tells whether `ctx.Err() != nil` at the head of the loop, `Dial` is the
error returned by `ws.c.Dial(ws.o.URL)`, `Write` the error returned by the write
of the register event on the client, `Read` the error returned by
`ws.c.Read()` when the read loop of the client ends. -/
structure DialOutcomes where
  ctxErr : Bool
  Dial : Option GoError
  Write : Option GoError
  Read : Option GoError
  deriving DecidableEq, Repr

/-- One pass of the loop of `dial` after the check of the context: dial,
register, read. -/
def webSocket.dial_pass (ws : webSocket) (o : DialOutcomes) (as : abilities) (name : String) :
    Exec (List Effect) :=
  -- Dial
  match o.Dial with
  | some err =>
    Exec.done
      [Effect.dial ws.o.URL,
        Effect.logError (errorsWrap (some err) "astibrain: dialing websocket failed"),
        Effect.sleep sleepError]
      none
  | none =>
    -- Register
    match webSocket.sendRegister { ws with c := fun _ _ => o.Write } as name with
    | Exec.panic msg => Exec.panic msg
    | Exec.done (_, tr) (some err) =>
      Exec.done
        (Effect.dial ws.o.URL :: tr ++
          [Effect.logError
              (errorsWrap (some err) "astibrain: sending register websocket event failed"),
            Effect.sleep sleepError])
        none
    | Exec.done (_, tr) none =>
      -- Read
      match o.Read with
      | some err =>
        Exec.done
          (Effect.dial ws.o.URL :: tr ++
            [Effect.read,
              Effect.logError (errorsWrap (some err) "astibrain: reading websocket failed"),
              Effect.sleep sleepError])
          none
      | none => Exec.done (Effect.dial ws.o.URL :: tr ++ [Effect.read]) none

/-- Function `dial` dials the websocket: the infinite loop that handles the
reconnection. `env i` is what the environment answers during the `i`-th pass;
the result is what the loop did from the pass `i` on and whether `dial` has
returned, within `fuel` passes. -/
def webSocket.dial (ws : webSocket) (env : Nat → DialOutcomes) (as : abilities)
    (name : String) : Nat → Nat → Exec (List Effect × Bool)
  | 0, _ => Exec.done ([], false) none
  | fuel + 1, i =>
    -- Check context error
    if (env i).ctxErr then Exec.done ([], true) none
    else
      match ws.dial_pass (env i) as name with
      | Exec.panic msg => Exec.panic msg
      | Exec.done tr _ =>
        match webSocket.dial ws env as name fuel (i + 1) with
        | Exec.panic msg => Exec.panic msg
        | Exec.done (rest, returned) _ => Exec.done (tr ++ rest, returned) none

/-! ## `brain/brain.go` -/

/-- Type `Options` are brain's options (the websocket options are part of the
websocket wrapper). -/
structure Options where
  Name : String
  deriving DecidableEq, Repr

/-- Type `Brain` is an object handling one or more abilities. -/
structure Brain where
  abilities : abilities
  o : Options
  ws : webSocket

/-- Function `Learn` allows the brain to learn a new ability. -/
def Brain.Learn (b : Brain) (name : String) (r : Runner) (o : AbilityOptions) : Brain :=
  { b with abilities := b.abilities.set (newAbility name r o) }

/-- The callback of the loop of `Run`: initialize, auto start. Its state is the
trace of what was done so far. -/
def Brain.Run_fn (ws : webSocket) (a : ability) (tr : List Effect) :
    Exec (ability × List Effect) :=
  -- Initialize
  match a.r.Init with
  | some (some e) =>
    Exec.done (a, tr ++ [Effect.init a.name])
      (errorsWrap (some e) ("astibrain: initializing " ++ a.name ++ " failed"))
  | init =>
    let tr1 := if init.isSome then tr ++ [Effect.init a.name] else tr
    -- Auto start
    if a.o.AutoStart then Exec.done ((a.on ws).1, tr1 ++ (a.on ws).2) none
    else Exec.done (a, tr1) none

/-- Function `Run` runs the brain: the registry when `Run` returns, what `Run` did and
the error it returns. The context is reset, the dial goroutine is started, the
abilities are looped through; the deferred `b.cancel()` runs when the function
returns, after the wait for the context to be done when there was no error. -/
def Brain.Run (b : Brain) : Exec (astibrain.abilities × List Effect) :=
  match b.abilities.abilities (Brain.Run_fn b.ws) [Effect.goDial b.o.Name] with
  | Exec.panic msg => Exec.panic msg
  | Exec.done (as, tr) (some e) =>
    Exec.done (as, tr ++ [Effect.ctxCancel])
      (errorsWrap (some e) "astibrain: initializing abilities failed")
  | Exec.done (as, tr) none =>
    -- Wait for context to be done
    Exec.done (as, tr ++ [Effect.ctxDone, Effect.ctxCancel]) none

/-- Function `Close` of the websocket wrapper implements the io.Closer interface;
`cClose` is the error returned by `ws.c.Close()`. -/
def webSocket.Close (cClose : Option GoError) : Option GoError :=
  errorsWrap cClose "astibrain: closing websocket client failed"

/-- The loop of `Close` that waits for the toggle to be switched off:
`for { if !a.t.isOn() { break }; time.Sleep(50 * time.Millisecond) }`.
`isOn k` is what `a.t.isOn()` returns the `k`-th time the loop asks (counted
from 0), `k` is the number of sleeps done so far; the result is the number of
sleeps when the loop is left, and `none` when it is not left within `fuel`
passes. -/
def Brain.Close_wait (isOn : Nat → Bool) : Nat → Nat → Option Nat
  | 0, _ => none
  | fuel + 1, k => if !isOn k then some k else Brain.Close_wait isOn fuel (k + 1)

/-- The callback of the loop of `Close`: switch the ability off, wait for the
toggle to be switched off, close the runnable if it is an `io.Closer`; the
callback returns nil. The controller of an ability that is off reports Off; for
an ability that is on, `running name k` tells whether the completion of the
task of the ability `name` is still not processed the `k`-th time the wait
loop asks, the controller reporting On until then. The state is the trace of
what was done so far, `none` when a wait loop has not been left within `fuel`
passes. -/
def Brain.Close_fn (running : String → Nat → Bool) (fuel : Nat) (a : ability)
    (s : Option (List Effect)) : Exec (ability × Option (List Effect)) :=
  match s with
  | none => Exec.done (a, none) none
  | some tr =>
    -- Switch the ability off, wait for the toggle to be switched off
    match Brain.Close_wait (fun k => a.off.1.t.isOn && running a.name k) fuel 0 with
    | none => Exec.done (a.off.1, none) none
    | some k =>
      Exec.done
        ({ a.off.1 with t := { a.off.1.t with state := false } },
          some (tr ++ a.off.2 ++ List.replicate k (Effect.sleep 50) ++
            -- Close
            match a.r.Close with
            | none => []
            | some none => [Effect.close a.name]
            | some (some e) =>
              [Effect.close a.name,
                Effect.logError
                  (errorsWrap (some e) ("astibrain: closing ability " ++ a.name ++ " failed"))]))
        none

/-- Function `Close` of the brain implements the io.Closer interface: the registry
when `Close` returns, what `Close` did and the error it returns; `none` when
`Close` has not returned within `fuel` passes of a wait loop. `cClose` is the
error returned by the `Close` of the websocket client, `running` is as in
`Brain.Close_fn`. -/
def Brain.Close (running : String → Nat → Bool) (cClose : Option GoError) (fuel : Nat)
    (b : Brain) : Option (Exec (astibrain.abilities × List Effect)) :=
  -- Close abilities
  match b.abilities.abilities (Brain.Close_fn running fuel) (some []) with
  | Exec.panic msg => some (Exec.panic msg)
  | Exec.done (_, none) _ => none
  | Exec.done (as, some tr) _ =>
    -- Close ws
    some (Exec.done (as, tr ++ [Effect.wsClose])
      (errorsWrap (webSocket.Close cClose) "astibrain: closing websocket failed"))

/-- The abilities whose controller was called with `off()` in a trace. -/
def Effect.toggledOff : List Effect → List String
  | [] => []
  | Effect.toggleOff name :: rest => name :: Effect.toggledOff rest
  | _ :: rest => Effect.toggledOff rest

/-- The abilities whose runnable was called with `Close()` in a trace. -/
def Effect.closes : List Effect → List String
  | [] => []
  | Effect.close name :: rest => name :: Effect.closes rest
  | _ :: rest => Effect.closes rest

/-- The writes in a trace: event name and payload. -/
def Effect.writes : List Effect → List (String × Payload)
  | [] => []
  | Effect.write eventName payload :: rest => (eventName, payload) :: Effect.writes rest
  | _ :: rest => Effect.writes rest

/-- The abilities whose controller was called with `on()` in a trace. -/
def Effect.toggledOn : List Effect → List String
  | [] => []
  | Effect.toggleOn name :: rest => name :: Effect.toggledOn rest
  | _ :: rest => Effect.toggledOn rest

end astibrain

/-! ## Concrete inputs -/

namespace astibob

/-- The registry of Bob with one brain, `brain`, that has one ability,
`Hearing`, which is on. -/
def brainsWithHearing : brains :=
  { b := some [("brain",
      { a := some [("Hearing", { key := "hearing", isOn := true, name := "Hearing" })],
        name := "brain" })] }

/-- The registry of Bob with one brain, `brain`, that has no ability. -/
def brainsWithoutAbility : brains :=
  { b := some [("brain", newBrain "brain")] }

/-- A case table for the runes above ASCII: the Kelvin sign (U+212A) goes to
`k`, the capital I with dot above (U+0130) goes to `i`, the two runes above
ASCII whose lower case is an ASCII letter; the other runes are left in place. -/
def caseTableKelvin : Char → Char :=
  fun c => if c.toNat = 0x212A then 'k' else if c.toNat = 0x130 then 'i' else c

/-- A client connection that is open: every write succeeds. -/
def clientOpen : Client := { Write := fun _ _ => none }

/-- A client connection that is already closed: every write fails. -/
def clientClosed : Client :=
  { Write := fun _ _ => some (GoError.new "astiws: client is not connected") }

end astibob

namespace astibrain

/-- A websocket wrapper on which every write succeeds. -/
def wsUp : webSocket := { c := fun _ _ => none }

/-- A websocket wrapper whose connection is down: every write fails. -/
def wsDown : webSocket := { c := fun _ _ => some (GoError.new "astiws: client is not connected") }

/-- Go `json.Unmarshal(payload, &name)` on the payloads used below: the JSON
string `"Dancing"` decodes to the name `Dancing`, the JSON string `"Hearing"` to
`Hearing`, and the payload `42`, not a JSON string, is an error. -/
def unmarshalName (payload : String) : Except GoError String :=
  if payload = "\"Dancing\"" then Except.ok "Dancing"
  else if payload = "\"Hearing\"" then Except.ok "Hearing"
  else Except.error (GoError.new "json: cannot unmarshal number into Go value of type string")

/-- The ability `Hearing` as `Learn` registers it: auto start, Off, a runnable
with neither `Init` nor `Close`. -/
def hearing : ability :=
  newAbility "Hearing" { Init := none, Close := none } { AutoStart := true }

/-- The ability `Speaking`, auto start, whose `Init` fails. -/
def speaking : ability :=
  newAbility "Speaking"
    { Init := some (some (GoError.new "espeak: binary not found")), Close := none }
    { AutoStart := true }

/-- The brain that learnt `Hearing` and then `Speaking`, connected. -/
def brainHearingSpeaking : Brain :=
  { abilities := { a := [hearing, speaking] }, o := { Name := "brain" }, ws := wsUp }

/-- The ability `Listening`, which is on and whose runnable has a `Close` that
fails. -/
def listening : ability :=
  { name := "Listening", o := { AutoStart := false },
    r := { Init := none, Close := some (some (GoError.new "portaudio: stream is busy")) },
    t := { state := true, launches := 1, cancels := 0 } }

/-- The ability `Recording`, which is off and whose runnable has a `Close` that
succeeds. -/
def recording : ability :=
  newAbility "Recording" { Init := none, Close := some none } { AutoStart := false }

/-- The brain that learnt `Listening`, `Recording` and `Speaking`. -/
def brainListening : Brain :=
  { abilities := { a := [listening, recording, speaking] }, o := { Name := "brain" },
    ws := wsUp }

/-- Tasks whose completion is processed during the second sleep of the wait
loop of `Close`: still running the first two times the loop asks. -/
def runningTwoSleeps : String → Nat → Bool :=
  fun _ k => decide (k < 2)

/-- The websocket wrapper of the brain of the example configuration. -/
def wsBob : webSocket :=
  { c := fun _ _ => none, o := { URL := "ws://127.0.0.1:6970/websocket" } }

/-- An environment of `dial` in which the read loop of the client, when it
ends, ends with an error: in the pass 0 the connection and the register event go
well and the read loop ends because the connection is closed; in the pass 1 the
connection attempt fails; in the pass 2 the connection succeeds and the write
of the register event fails; at the head of the pass 3 the context is
cancelled. -/
def envReconnect : Nat → DialOutcomes :=
  fun i =>
    if i = 0 then
      { ctxErr := false, Dial := none, Write := none,
        Read := some (GoError.new "websocket: close 1006 (abnormal closure)") }
    else if i = 1 then
      { ctxErr := false, Dial := some (GoError.new "dial tcp: connection refused"),
        Write := none, Read := some (GoError.new "websocket: close 1006 (abnormal closure)") }
    else if i = 2 then
      { ctxErr := false, Dial := none, Write := some (GoError.new "write: broken pipe"),
        Read := some (GoError.new "websocket: close 1006 (abnormal closure)") }
    else
      { ctxErr := true, Dial := none, Write := none,
        Read := some (GoError.new "websocket: close 1006 (abnormal closure)") }

end astibrain

/-! ## Lemmas on the key -/

namespace astibob

theorem splitByLoop_acc (R : Char → Char → Bool) (l : List Char) (a : Char) (g : List Char)
    (gs : List (List Char)) :
    List.splitBy.loop R l a g gs = gs.reverse ++ List.splitBy.loop R l a g [] := by
  induction l generalizing a g gs with
  | nil => simp [List.splitBy.loop]
  | cons b l ih =>
    simp only [List.splitBy.loop]
    split
    · exact ih _ _ _
    · rw [ih, ih b [] [_]]
      simp

theorem splitByLoop_word (l : List Char) (a : Char) (g : List Char) (ha : isWordChar a = true) :
    List.splitBy.loop (fun a b => !isWordChar a && !isWordChar b) l a g [] =
      (g.reverse ++ [a]) :: l.splitBy (fun a b => !isWordChar a && !isWordChar b) := by
  cases l with
  | nil => simp [List.splitBy.loop, List.splitBy]
  | cons b l =>
    simp only [List.splitBy.loop, ha, Bool.not_true, Bool.false_and]
    rw [splitByLoop_acc]
    simp [List.splitBy]

theorem splitByLoop_nonWord (l : List Char) (a : Char) (g : List Char)
    (ha : isWordChar a = false) :
    List.splitBy.loop (fun a b => !isWordChar a && !isWordChar b) l a g [] =
      (g.reverse ++ a :: l.takeWhile (fun d => !isWordChar d)) ::
        (skipNonWord l).splitBy (fun a b => !isWordChar a && !isWordChar b) := by
  induction l generalizing a g with
  | nil => simp [List.splitBy.loop, List.splitBy, skipNonWord]
  | cons b l ih =>
    cases hb : isWordChar b with
    | true =>
      simp only [List.splitBy.loop, ha, hb, Bool.not_true, Bool.and_false]
      rw [splitByLoop_acc]
      simp [List.splitBy, skipNonWord, List.takeWhile_cons, List.dropWhile_cons, hb]
    | false =>
      simp only [List.splitBy.loop, ha, hb, Bool.not_false, Bool.and_true]
      rw [ih b (a :: g) hb]
      simp [skipNonWord, List.takeWhile_cons, List.dropWhile_cons, hb]

theorem collapseNonWordRuns_nil : collapseNonWordRuns [] = [] := by
  simp [collapseNonWordRuns]

theorem collapseNonWordRuns_word (c : Char) (cs : List Char) (hc : isWordChar c = true) :
    collapseNonWordRuns (c :: cs) = c :: collapseNonWordRuns cs := by
  simp [collapseNonWordRuns, List.splitBy, splitByLoop_word cs c [] hc, hc]

theorem collapseNonWordRuns_nonWord (c : Char) (cs : List Char) (hc : isWordChar c = false) :
    collapseNonWordRuns (c :: cs) = '-' :: collapseNonWordRuns (skipNonWord cs) := by
  have hall : ∀ d ∈ cs.takeWhile (fun d => !isWordChar d), isWordChar d = false := by
    intro d hd
    have h := List.mem_takeWhile_imp (p := fun d => !isWordChar d) hd
    simpa using h
  simp [collapseNonWordRuns, List.splitBy, splitByLoop_nonWord cs c [] hc, hc]
  rw [if_pos hall]
  rfl

theorem replaceAll_eq_collapse (s : List Char) :
    regexpAbilityKey_ReplaceAllString ['-'] s = collapseNonWordRuns s := by
  induction s using regexpAbilityKey_ReplaceAllString.induct ['-'] with
  | case1 => simp [regexpAbilityKey_ReplaceAllString, collapseNonWordRuns_nil]
  | case2 c cs hc ih =>
    rw [regexpAbilityKey_ReplaceAllString, if_pos hc, ih, collapseNonWordRuns_word c cs hc]
  | case3 c cs hc ih =>
    have hc' : isWordChar c = false := by simpa using hc
    rw [regexpAbilityKey_ReplaceAllString, if_neg hc, ih, collapseNonWordRuns_nonWord c cs hc']
    rfl

end astibob

/-! ## The ability key (`ability.go`) -/

namespace astibob

/-- C1: for every name, `abilityKey(name)` is the lowercased name in which
every maximal run of non-word characters is replaced by exactly one hyphen and
every word character is kept in place; `abilityKey("Hearing Aid!!")` is
`"hearing-aid-"`; `newAbility(name, isOn)` stores `key = abilityKey(name)` with
`name` and `isOn` unchanged. -/
theorem abilityKey_collapses_runs (caseTable : Char → Char) :
    (∀ name : String, abilityKey caseTable name =
        String.mk (collapseNonWordRuns (stringsToLower caseTable name.data))) ∧
    abilityKey caseTable "Hearing Aid!!" = "hearing-aid-" ∧
    (∀ (name : String) (isOn : Bool),
        newAbility caseTable name isOn =
          { key := abilityKey caseTable name, isOn := isOn, name := name }) := by
  refine ⟨fun name => ?_, ?_, fun name isOn => rfl⟩
  · simp only [abilityKey, replaceAll_eq_collapse]
  · simp [abilityKey, regexpAbilityKey_ReplaceAllString, stringsToLower, unicodeToLower,
      isWordChar, skipNonWord]

end astibob

/-! ## The completion of a task (`brain/ability.go`) -/

namespace astibrain

theorem writes_send (ws : webSocket) (eventName : String) (payload : Payload) :
    Effect.writes (ws.send eventName payload) = [(eventName, payload)] := by
  unfold webSocket.send
  cases ws.c eventName payload <;> simp [Effect.writes]

/-- C2: whatever `err` the wait on the task of an ability returns, the
goroutine started by `ability.on` sends exactly one event, carrying the name of
the ability: `ability.crashed` if and only if `err` is not nil and is not
`context.Canceled`, `ability.stopped` otherwise; so the cancellation raised by
`off()` never gives `ability.crashed`. -/
theorem on_wait_sends_crashed_or_stopped (ws : webSocket) (a : ability) (err : Option GoError) :
    (∃ ev, Effect.writes (a.on_wait ws err) = [(ev, Payload.name a.name)] ∧
      (ev = "ability.crashed" ↔ (err ≠ none ∧ err ≠ some GoError.contextCanceled)) ∧
      (ev = "ability.stopped" ↔ (err = none ∨ err = some GoError.contextCanceled))) ∧
    Effect.writes (a.on_wait ws (some GoError.contextCanceled)) =
      [("ability.stopped", Payload.name a.name)] := by
  constructor
  · by_cases h : err ≠ none ∧ err ≠ some GoError.contextCanceled
    · refine ⟨"ability.crashed", ?_, ?_, ?_⟩
      · simp only [ability.on_wait, if_pos h]
        show Effect.writes (ws.send _ _) = _
        rw [writes_send]
        rfl
      · simp [h]
      · constructor
        · intro hev
          exact absurd hev (by decide)
        · intro hor
          rcases hor with h1 | h1
          · exact absurd h1 h.1
          · exact absurd h1 h.2
    · refine ⟨"ability.stopped", ?_, ?_, ?_⟩
      · simp only [ability.on_wait, if_neg h, writes_send]
        rfl
      · constructor
        · intro hev
          exact absurd hev (by decide)
        · intro h1
          exact absurd h1 h
      · constructor
        · intro _
          by_contra hno
          apply h
          constructor
          · intro h1
            exact hno (Or.inl h1)
          · intro h1
            exact hno (Or.inr h1)
        · intro _
          rfl
  · have h : ¬ ((some GoError.contextCanceled : Option GoError) ≠ none ∧
        (some GoError.contextCanceled : Option GoError) ≠ some GoError.contextCanceled) := by
      intro hc
      exact hc.2 rfl
    simp only [ability.on_wait, if_neg h, writes_send]
    rfl

end astibrain

/-! ## The handlers of the start and stop commands (`brain/websocket.go`) -/

namespace astibrain

theorem handleAbilityStart_unknown (ws : webSocket) (unmarshal : String → Except GoError String)
    (as : abilities) (payload name : String) (hp : unmarshal payload = Except.ok name)
    (hn : as.ability name = none) :
    ws.handleAbilityStart unmarshal as payload =
      Exec.panic "invalid memory address or nil pointer dereference" := by
  simp [webSocket.handleAbilityStart, hp, hn, ability.viaPointer]

theorem handleAbilityStop_unknown (unmarshal : String → Except GoError String)
    (as : abilities) (payload name : String) (hp : unmarshal payload = Except.ok name)
    (hn : as.ability name = none) :
    webSocket.handleAbilityStop unmarshal as payload =
      Exec.panic "invalid memory address or nil pointer dereference" := by
  simp [webSocket.handleAbilityStop, hp, hn, ability.viaPointer]

theorem handleAbilityStart_malformed (ws : webSocket) (unmarshal : String → Except GoError String)
    (as : abilities) (payload : String) (e : GoError) (hp : unmarshal payload = Except.error e) :
    ws.handleAbilityStart unmarshal as payload =
      Exec.done (as, [])
        (some (GoError.wrap e "astibrain: json unmarshaling ability.start payload failed")) := by
  simp [webSocket.handleAbilityStart, hp, errorsWrap]

theorem handleAbilityStart_known (ws : webSocket) (unmarshal : String → Except GoError String)
    (as : abilities) (payload name : String) (a : ability)
    (hp : unmarshal payload = Except.ok name) (hn : as.ability name = some a) :
    ws.handleAbilityStart unmarshal as payload =
      Exec.done (as.store (a.on ws).1, (a.on ws).2) none := by
  simp [webSocket.handleAbilityStart, hp, hn, ability.viaPointer]

theorem handleAbilityStop_malformed (unmarshal : String → Except GoError String)
    (as : abilities) (payload : String) (e : GoError) (hp : unmarshal payload = Except.error e) :
    webSocket.handleAbilityStop unmarshal as payload =
      Exec.done (as, [])
        (some (GoError.wrap e "astibrain: json unmarshaling ability.stop payload failed")) := by
  simp [webSocket.handleAbilityStop, hp, errorsWrap]

theorem handleAbilityStop_known (unmarshal : String → Except GoError String)
    (as : abilities) (payload name : String) (a : ability)
    (hp : unmarshal payload = Except.ok name) (hn : as.ability name = some a) :
    webSocket.handleAbilityStop unmarshal as payload =
      Exec.done (as.store a.off.1, a.off.2) none := by
  simp [webSocket.handleAbilityStop, hp, hn, ability.viaPointer]

/-- C3 (the code at the failing input): with the registry holding only
`Hearing`, the well-formed payload `"Dancing"` names an ability that is not in
the registry; `handleAbilityStart` and `handleAbilityStop` then call the method
on the nil pointer of the failed lookup and panic instead of returning. -/
theorem handleAbility_unknown_name_panics :
    wsUp.handleAbilityStart unmarshalName { a := [hearing] } "\"Dancing\"" =
      Exec.panic "invalid memory address or nil pointer dereference" ∧
    webSocket.handleAbilityStop unmarshalName { a := [hearing] } "\"Dancing\"" =
      Exec.panic "invalid memory address or nil pointer dereference" :=
  ⟨handleAbilityStart_unknown wsUp unmarshalName _ _ "Dancing" (by simp [unmarshalName]) (by decide),
    handleAbilityStop_unknown unmarshalName _ _ "Dancing" (by simp [unmarshalName]) (by decide)⟩

/-- C4 (the code at the failing input): for the well-formed payload `"Dancing"`
and the registry holding only `Hearing`, neither handler returns an error:
no result of the form "returned with a non-nil error" is produced; for the
malformed payload `42` both return a non-nil error and for the known name
`Hearing` both return nil. -/
theorem handleAbility_unknown_name_returns_no_error :
    (∀ s e, wsUp.handleAbilityStart unmarshalName { a := [hearing] } "\"Dancing\"" ≠
      Exec.done s (some e)) ∧
    (∀ s e, webSocket.handleAbilityStop unmarshalName { a := [hearing] } "\"Dancing\"" ≠
      Exec.done s (some e)) ∧
    (∃ s e, wsUp.handleAbilityStart unmarshalName { a := [hearing] } "42" =
      Exec.done s (some e)) ∧
    (∃ s e, webSocket.handleAbilityStop unmarshalName { a := [hearing] } "42" =
      Exec.done s (some e)) ∧
    (∃ s, wsUp.handleAbilityStart unmarshalName { a := [hearing] } "\"Hearing\"" =
      Exec.done s none) ∧
    (∃ s, webSocket.handleAbilityStop unmarshalName { a := [hearing] } "\"Hearing\"" =
      Exec.done s none) := by
  refine ⟨?_, ?_, ?_, ?_, ?_, ?_⟩
  · intro s e h
    rw [handleAbilityStart_unknown wsUp unmarshalName _ _ "Dancing" (by simp [unmarshalName]) (by decide)] at h
    cases h
  · intro s e h
    rw [handleAbilityStop_unknown unmarshalName _ _ "Dancing" (by simp [unmarshalName]) (by decide)] at h
    cases h
  · exact ⟨_, _, handleAbilityStart_malformed wsUp unmarshalName _ "42"
      (GoError.new "json: cannot unmarshal number into Go value of type string")
      (by simp [unmarshalName])⟩
  · exact ⟨_, _, handleAbilityStop_malformed unmarshalName _ "42"
      (GoError.new "json: cannot unmarshal number into Go value of type string")
      (by simp [unmarshalName])⟩
  · exact ⟨_, handleAbilityStart_known wsUp unmarshalName _ _ "Hearing" hearing
      (by simp [unmarshalName]) (by decide)⟩
  · exact ⟨_, handleAbilityStop_known unmarshalName _ _ "Hearing" hearing
      (by simp [unmarshalName]) (by decide)⟩

end astibrain

/-! ## Start-up of the brain (`brain/brain.go`) -/

namespace astibrain

theorem toggledOn_append (l1 l2 : List Effect) :
    Effect.toggledOn (l1 ++ l2) = Effect.toggledOn l1 ++ Effect.toggledOn l2 := by
  induction l1 with
  | nil => rfl
  | cons x rest ih => cases x <;> simp [Effect.toggledOn, ih]

theorem writes_append (l1 l2 : List Effect) :
    Effect.writes (l1 ++ l2) = Effect.writes l1 ++ Effect.writes l2 := by
  induction l1 with
  | nil => rfl
  | cons x rest ih => cases x <;> simp [Effect.writes, ih]

theorem toggledOn_send (ws : webSocket) (eventName : String) (payload : Payload) :
    Effect.toggledOn (ws.send eventName payload) = [] := by
  unfold webSocket.send
  cases ws.c eventName payload <;> simp [Effect.toggledOn]

theorem ctxDone_not_mem_send (ws : webSocket) (eventName : String) (payload : Payload) :
    Effect.ctxDone ∉ ws.send eventName payload := by
  unfold webSocket.send
  cases ws.c eventName payload <;> simp

theorem Run_fn_init_fails (ws : webSocket) (f : ability) (e : GoError) (tr : List Effect)
    (hf : f.r.Init = some (some e)) :
    Brain.Run_fn ws f tr =
      Exec.done (f, tr ++ [Effect.init f.name])
        (some (GoError.wrap e ("astibrain: initializing " ++ f.name ++ " failed"))) := by
  simp [Brain.Run_fn, hf, errorsWrap]

theorem Run_fn_init_ok (ws : webSocket) (a : ability) (tr : List Effect)
    (ha : ∀ e, a.r.Init ≠ some (some e)) :
    Brain.Run_fn ws a tr =
      Exec.done ((if a.o.AutoStart then (a.on ws).1 else a),
        tr ++ ((if a.r.Init.isSome then [Effect.init a.name] else []) ++
          (if a.o.AutoStart then (a.on ws).2 else []))) none := by
  rcases h : a.r.Init with _ | _ | e
  · cases hs : a.o.AutoStart <;> simp [Brain.Run_fn, h, hs]
  · cases hs : a.o.AutoStart <;> simp [Brain.Run_fn, h, hs]
  · exact absurd h (ha e)

theorem on_effects (ws : webSocket) (a : ability) :
    Effect.ctxDone ∉ (a.on ws).2 ∧
    Effect.toggledOn (a.on ws).2 = (if a.t.isOn then [] else [a.name]) ∧
    Effect.writes (a.on ws).2 =
      (if a.t.isOn then [] else [(WebsocketEventNameAbilityStarted, Payload.name a.name)]) := by
  cases h : a.t.isOn
  · simp only [ability.on, h]
    refine ⟨?_, ?_, ?_⟩
    · simp [ctxDone_not_mem_send]
    · show a.name :: Effect.toggledOn (ws.send _ _) = _
      rw [toggledOn_send]
      rfl
    · show Effect.writes (ws.send _ _) = _
      rw [writes_send]
      rfl
  · simp [ability.on, h, Effect.toggledOn, Effect.writes]

theorem Run_loop_init_failure (ws : webSocket) (pre post : List ability) (f : ability)
    (e : GoError) (hpre : ∀ a ∈ pre, ∀ e1, a.r.Init ≠ some (some e1))
    (hf : f.r.Init = some (some e)) (tr0 : List Effect) :
    ∃ tr1, abilities.loop (Brain.Run_fn ws) (pre ++ f :: post) tr0 =
        Exec.done (pre.map (fun a => if a.o.AutoStart then (a.on ws).1 else a) ++ f :: post,
            tr0 ++ tr1 ++ [Effect.init f.name])
          (some (GoError.wrap e ("astibrain: initializing " ++ f.name ++ " failed"))) ∧
      Effect.ctxDone ∉ tr1 ∧
      Effect.toggledOn tr1 =
        (pre.filter (fun a => a.o.AutoStart && !a.t.isOn)).map (fun a => a.name) ∧
      Effect.writes tr1 =
        (pre.filter (fun a => a.o.AutoStart && !a.t.isOn)).map
          (fun a => (WebsocketEventNameAbilityStarted, Payload.name a.name)) := by
  induction pre generalizing tr0 with
  | nil =>
    refine ⟨[], ?_, by simp, rfl, rfl⟩
    simp [abilities.loop, Run_fn_init_fails ws f e tr0 hf]
  | cons a pre ih =>
    have ha : ∀ e1, a.r.Init ≠ some (some e1) := hpre a (List.mem_cons_self _ _)
    have hpre1 : ∀ x ∈ pre, ∀ e1, x.r.Init ≠ some (some e1) :=
      fun x hx => hpre x (List.mem_cons_of_mem _ hx)
    obtain ⟨tr1, hloop, hdone, hon, hwr⟩ := ih hpre1
      (tr0 ++ ((if a.r.Init.isSome then [Effect.init a.name] else []) ++
          (if a.o.AutoStart then (a.on ws).2 else [])))
    obtain ⟨hd, ht, hw⟩ := on_effects ws a
    refine ⟨((if a.r.Init.isSome then [Effect.init a.name] else []) ++
          (if a.o.AutoStart then (a.on ws).2 else [])) ++ tr1, ?_, ?_, ?_, ?_⟩
    · rw [List.cons_append, abilities.loop, Run_fn_init_ok ws a tr0 ha]
      simp only []
      rw [hloop]
      simp
    · intro hmem
      rcases List.mem_append.1 hmem with h1 | h1
      · rcases List.mem_append.1 h1 with h2 | h2
        · split at h2 <;> simp at h2
        · split at h2
          · exact hd h2
          · simp at h2
      · exact hdone h1
    · rw [toggledOn_append, toggledOn_append, hon]
      cases hs : a.o.AutoStart <;> cases hi : a.t.isOn <;> cases hI : a.r.Init.isSome <;>
        simp [hs, hi, ht, Effect.toggledOn]
    · rw [writes_append, writes_append, hwr]
      cases hs : a.o.AutoStart <;> cases hi : a.t.isOn <;> cases hI : a.r.Init.isSome <;>
        simp [hs, hi, hw, Effect.writes]

/-- C5 (counterexample): in the brain that learnt `Hearing` (auto start, no
`Init`) and then `Speaking` (its `Init` fails), `Run` returns the
initialization error without the wait for the context, but `Hearing`, visited
before `Speaking`, has been switched on: its controller was called with `on()`
and `ability.started` was sent for it. -/
theorem Run_init_failure_after_auto_start :
    Brain.Run brainHearingSpeaking =
      Exec.done
        ({ a := [{ hearing with t := { state := true, launches := 1, cancels := 0 } }, speaking] },
          [Effect.goDial "brain", Effect.toggleOn "Hearing", Effect.goWait "Hearing",
            Effect.write "ability.started" (Payload.name "Hearing"), Effect.init "Speaking",
            Effect.ctxCancel])
        (some (GoError.wrap
          (GoError.wrap (GoError.new "espeak: binary not found")
            "astibrain: initializing Speaking failed")
          "astibrain: initializing abilities failed")) := by
  decide

/-- C5 (amended): if the abilities `pre` visited first have no failing `Init`
and the `Init` of the next ability `f` fails, `Run` returns a non-nil error
without the wait for the context to be done; `f` and the abilities `post` after
it are left as they were, and the calls of `on()` and the `ability.started`
events of the run are exactly those of the abilities of `pre` that are auto
start and were Off, which are switched on. -/
theorem Run_init_failure (b : Brain) (pre post : List ability) (f : ability) (e : GoError)
    (hreg : b.abilities.a = pre ++ f :: post)
    (hpre : ∀ a ∈ pre, ∀ e1, a.r.Init ≠ some (some e1))
    (hf : f.r.Init = some (some e)) :
    ∃ tr, Brain.Run b =
        Exec.done
          ({ a := pre.map (fun a => if a.o.AutoStart then (a.on b.ws).1 else a) ++ f :: post },
            tr)
          (some (GoError.wrap
            (GoError.wrap e ("astibrain: initializing " ++ f.name ++ " failed"))
            "astibrain: initializing abilities failed")) ∧
      Effect.ctxDone ∉ tr ∧
      Effect.toggledOn tr =
        (pre.filter (fun a => a.o.AutoStart && !a.t.isOn)).map (fun a => a.name) ∧
      Effect.writes tr =
        (pre.filter (fun a => a.o.AutoStart && !a.t.isOn)).map
          (fun a => (WebsocketEventNameAbilityStarted, Payload.name a.name)) := by
  obtain ⟨tr1, hloop, hdone, hon, hwr⟩ :=
    Run_loop_init_failure b.ws pre post f e hpre hf [Effect.goDial b.o.Name]
  refine ⟨[Effect.goDial b.o.Name] ++ tr1 ++ [Effect.init f.name] ++ [Effect.ctxCancel],
    ?_, ?_, ?_, ?_⟩
  · simp only [Brain.Run, abilities.abilities, hreg, hloop, errorsWrap, Option.map]
  · intro hmem
    simp at hmem
    exact hdone hmem
  · simp [toggledOn_append, Effect.toggledOn, hon]
  · simp [writes_append, Effect.writes, hwr]

/-- C5 (witness): the amended statement at the brain that learnt `Hearing` and
then `Speaking`. -/
theorem Run_init_failure_witness :
    ∃ tr, Brain.Run brainHearingSpeaking =
        Exec.done
          ({ a := [hearing].map
              (fun a => if a.o.AutoStart then (a.on brainHearingSpeaking.ws).1 else a) ++
                speaking :: [] },
            tr)
          (some (GoError.wrap
            (GoError.wrap (GoError.new "espeak: binary not found")
              ("astibrain: initializing " ++ speaking.name ++ " failed"))
            "astibrain: initializing abilities failed")) ∧
      Effect.ctxDone ∉ tr ∧
      Effect.toggledOn tr =
        ([hearing].filter (fun a => a.o.AutoStart && !a.t.isOn)).map (fun a => a.name) ∧
      Effect.writes tr =
        ([hearing].filter (fun a => a.o.AutoStart && !a.t.isOn)).map
          (fun a => (WebsocketEventNameAbilityStarted, Payload.name a.name)) :=
  Run_init_failure brainHearingSpeaking [hearing] [] speaking
    (GoError.new "espeak: binary not found") rfl
    (by
      intro a ha e1
      rw [List.mem_singleton] at ha
      subst ha
      simp [hearing, newAbility])
    rfl

end astibrain

/-! ## The broadcast to the clients (`bob.go`) -/

namespace astibob

theorem dispatchWsEvent_cons (e : String × Client) (ws : List (String × Client))
    (name payload : String) :
    dispatchWsEvent (e :: ws) name payload =
      dispatchWsEvent [e] name payload ++ dispatchWsEvent ws name payload := by
  simp [dispatchWsEvent, Manager_Loop]

theorem writes_dispatchWsEvent_cons (e : String × Client) (ws : List (String × Client))
    (name payload : String) :
    Effect.writes (dispatchWsEvent (e :: ws) name payload) =
      (e.1, name, payload) :: Effect.writes (dispatchWsEvent ws name payload) := by
  simp only [dispatchWsEvent, Manager_Loop]
  cases e.2.Write name payload <;> simp [Effect.writes]

/-- C6: for every list of client connections, whatever the outcome of the write
on each of them, `dispatchWsEvent` attempts the write of the event, with the
same name and payload, on every connection exactly once and in turn; what is
done on the connections after some connections is what is done on them alone,
so a failed write neither stops the loop nor changes the writes on the others;
with three connections of which the second is closed, the first and the third
are still written to. -/
theorem dispatchWsEvent_writes_every_connection :
    (∀ (ws : List (String × Client)) (name payload : String),
      Effect.writes (dispatchWsEvent ws name payload) =
        ws.map (fun e => (e.1, name, payload))) ∧
    (∀ (ws1 ws2 : List (String × Client)) (name payload : String),
      dispatchWsEvent (ws1 ++ ws2) name payload =
        dispatchWsEvent ws1 name payload ++ dispatchWsEvent ws2 name payload) ∧
    dispatchWsEvent [("c1", clientOpen), ("c2", clientClosed), ("c3", clientOpen)]
        "ability.started" "\"Hearing\"" =
      [Effect.write "c1" "ability.started" "\"Hearing\"",
        Effect.write "c2" "ability.started" "\"Hearing\"",
        Effect.logError (some (GoError.wrap (GoError.new "astiws: client is not connected")
          "astibob: writing to ws client c2 failed")),
        Effect.write "c3" "ability.started" "\"Hearing\""] := by
  refine ⟨?_, ?_, by decide⟩
  · intro ws name payload
    induction ws with
    | nil => rfl
    | cons e ws ih => rw [writes_dispatchWsEvent_cons, ih, List.map_cons]
  · intro ws1 ws2 name payload
    induction ws1 with
    | nil => rfl
    | cons e ws1 ih =>
      rw [List.cons_append, dispatchWsEvent_cons, ih, dispatchWsEvent_cons e ws1,
        List.append_assoc]

end astibob

/-! ## The register event (`brain/websocket.go`) -/

namespace astibrain

theorem setEntry_fresh {V : Type} (k : String) (v : V) (l : List (String × V))
    (hk : ∀ e ∈ l, e.1 ≠ k) : GoMap.setEntry k v l = l ++ [(k, v)] := by
  induction l with
  | nil => rfl
  | cons e es ih =>
    have he : e.1 ≠ k := hk e (List.mem_cons_self _ _)
    have hes : ∀ x ∈ es, x.1 ≠ k := fun x hx => hk x (List.mem_cons_of_mem _ hx)
    simp [GoMap.setEntry, he, ih hes]

theorem sendRegister_loop (name : String) (l : List ability)
    (acc : List (String × WebSocketAbility))
    (hnd : (l.map (fun a => a.name)).Nodup)
    (hacc : ∀ a ∈ l, ∀ e ∈ acc, e.1 ≠ a.name) :
    abilities.loop webSocket.sendRegister_fn l { Abilities := some acc, Name := name } =
    Exec.done (l, { Abilities := some (acc ++ l.map (fun a =>
      (a.name, ({ IsOn := a.t.isOn, Name := a.name } : WebSocketAbility)))), Name := name })
      none := by
  induction l generalizing acc with
  | nil => simp [abilities.loop]
  | cons a rest ih =>
    have hfresh : ∀ e ∈ acc, e.1 ≠ a.name := hacc a (List.mem_cons_self _ _)
    rw [List.map_cons, List.nodup_cons] at hnd
    have hacc1 : ∀ x ∈ rest, ∀ e ∈ acc ++ [(a.name,
        ({ IsOn := a.t.isOn, Name := a.name } : WebSocketAbility))], e.1 ≠ x.name := by
      intro x hx e he
      rcases List.mem_append.1 he with h1 | h1
      · exact hacc x (List.mem_cons_of_mem _ hx) e h1
      · rw [List.mem_singleton] at h1
        subst h1
        intro heq
        apply hnd.1
        rw [List.mem_map]
        exact ⟨x, hx, heq.symm⟩
    have hfn : webSocket.sendRegister_fn a { Abilities := some acc, Name := name } =
        Exec.done (a, { Abilities := some (acc ++ [(a.name,
          ({ IsOn := a.t.isOn, Name := a.name } : WebSocketAbility))]), Name := name }) none := by
      simp [webSocket.sendRegister_fn, GoMap.set, setEntry_fresh _ _ acc hfresh]
    rw [abilities.loop, hfn]
    simp only []
    rw [ih _ hnd.2 hacc1]
    simp

theorem find_map_entries (l : List ability) (k : String) :
    GoMap.get (some (l.map (fun a =>
      (a.name, ({ IsOn := a.t.isOn, Name := a.name } : WebSocketAbility))))) k =
      (l.find? (fun x => x.name == k)).map (fun a => { IsOn := a.t.isOn, Name := a.name }) := by
  induction l with
  | nil => rfl
  | cons a rest ih =>
    simp only [GoMap.get, GoMap.entries, Option.getD, List.map_cons, List.find?_cons] at ih ⊢
    cases h : a.name == k
    · simpa using ih
    · simp

/-- C7: for every agent name and every registry (a mapping: no two abilities
of the same name), the payload built and written by `sendRegister` has `Name`
equal to the agent name and an `Abilities` map with exactly one entry per
ability of the registry and no other entry, the entry of an ability being keyed
by its name and holding that name and the current `isOn()` of its controller;
the registry is left as it was. -/
theorem sendRegister_payload_is_snapshot (ws : webSocket) (as : abilities) (name : String)
    (hnd : (as.a.map (fun a => a.name)).Nodup) :
    ∃ p : WebSocketRegister,
      ws.sendRegister as name =
        Exec.done (as, [Effect.write WebsocketEventNameRegister (Payload.register p)])
          (errorsWrap (ws.c WebsocketEventNameRegister (Payload.register p))
            "astibrain: sending register event failed") ∧
      p.Name = name ∧
      p.Abilities = some (as.a.map (fun a =>
        (a.name, ({ IsOn := a.t.isOn, Name := a.name } : WebSocketAbility)))) ∧
      (p.Abilities.entries.map (fun e => e.1)).Nodup ∧
      p.Abilities.entries.length = as.a.length ∧
      (∀ k, p.Abilities.get k =
        (as.ability k).map (fun a => { IsOn := a.t.isOn, Name := a.name })) := by
  have hloop := sendRegister_loop name as.a [] hnd (by simp)
  refine ⟨{ Abilities := some (as.a.map (fun a =>
      (a.name, ({ IsOn := a.t.isOn, Name := a.name } : WebSocketAbility)))), Name := name },
    ?_, rfl, rfl, ?_, ?_, ?_⟩
  · simp only [webSocket.sendRegister, webSocket.sendRegister_payload, abilities.abilities,
      GoMap.make, hloop, List.nil_append]
  · simpa [GoMap.entries, List.map_map, Function.comp_def] using hnd
  · simp [GoMap.entries]
  · intro k
    exact find_map_entries as.a k

/-- C7 (witness): the statement at the registry of `Hearing` and `Speaking`, for
the agent `brain` whose connection is down. -/
theorem sendRegister_payload_is_snapshot_witness :
    (({ a := [hearing, speaking] } : abilities).a.map (fun a => a.name)).Nodup ∧
    ∃ p : WebSocketRegister,
      wsDown.sendRegister { a := [hearing, speaking] } "brain" =
        Exec.done ({ a := [hearing, speaking] },
            [Effect.write WebsocketEventNameRegister (Payload.register p)])
          (errorsWrap (wsDown.c WebsocketEventNameRegister (Payload.register p))
            "astibrain: sending register event failed") ∧
      p.Name = "brain" ∧
      p.Abilities = some (({ a := [hearing, speaking] } : abilities).a.map (fun a =>
        (a.name, ({ IsOn := a.t.isOn, Name := a.name } : WebSocketAbility)))) ∧
      (p.Abilities.entries.map (fun e => e.1)).Nodup ∧
      p.Abilities.entries.length = ({ a := [hearing, speaking] } : abilities).a.length ∧
      (∀ k, p.Abilities.get k =
        (({ a := [hearing, speaking] } : abilities).ability k).map
          (fun a => { IsOn := a.t.isOn, Name := a.name })) :=
  ⟨by decide,
    sendRegister_payload_is_snapshot wsDown { a := [hearing, speaking] } "brain" (by decide)⟩

end astibrain

/-! ## Switching an ability on and off (`brain/ability.go`) -/

namespace astibrain

theorem count_goWait_send (ws : webSocket) (eventName : String) (payload : Payload)
    (name : String) : List.count (Effect.goWait name) (ws.send eventName payload) = 0 := by
  unfold webSocket.send
  cases ws.c eventName payload <;> simp [List.count_cons]

theorem on_when_on (ws : webSocket) (a : ability) (h : a.t.isOn = true) :
    a.on ws = (a, []) := by
  simp [ability.on, h]

theorem on_when_off (ws : webSocket) (a : ability) (h : a.t.isOn = false) :
    a.on ws =
      ({ a with t := { a.t with state := true, launches := a.t.launches + 1 } },
        Effect.toggleOn a.name :: Effect.goWait a.name ::
          ws.send WebsocketEventNameAbilityStarted (Payload.name a.name)) := by
  have hs : a.t.state = false := h
  simp [ability.on, h, toggle.on, hs]

/-- C8: `ability.on` does nothing when the controller reports On: no call of
the controller's `on()`, no goroutine waiting for the completion, no
`ability.started` event. From the Off state, with the controller reporting On
from its `on()` on, two calls of `ability.on` in succession launch the task
once, start one goroutine, send `ability.started` once and leave `isOn()`
true. -/
theorem on_is_noop_when_on :
    (∀ (ws : webSocket) (a : ability), a.t.isOn = true → a.on ws = (a, [])) ∧
    (∀ (ws : webSocket) (a : ability), a.t.isOn = false →
      ((a.on ws).1.on ws) = ((a.on ws).1, []) ∧
      ((a.on ws).1.on ws).1.t.isOn = true ∧
      ((a.on ws).1.on ws).1.t.launches = a.t.launches + 1 ∧
      Effect.toggledOn ((a.on ws).2 ++ ((a.on ws).1.on ws).2) = [a.name] ∧
      List.count (Effect.goWait a.name) ((a.on ws).2 ++ ((a.on ws).1.on ws).2) = 1 ∧
      Effect.writes ((a.on ws).2 ++ ((a.on ws).1.on ws).2) =
        [("ability.started", Payload.name a.name)]) := by
  refine ⟨on_when_on, ?_⟩
  intro ws a h
  have hon : (a.on ws).1.t.isOn = true := by
    rw [on_when_off ws a h]
    rfl
  have h2 : ((a.on ws).1.on ws) = ((a.on ws).1, []) := on_when_on ws _ hon
  refine ⟨h2, ?_, ?_, ?_, ?_, ?_⟩
  · rw [h2]
    exact hon
  · rw [h2, on_when_off ws a h]
  · rw [h2, List.append_nil, on_when_off ws a h]
    show a.name :: Effect.toggledOn (ws.send _ _) = _
    rw [toggledOn_send]
  · rw [h2, List.append_nil, on_when_off ws a h]
    rw [List.count_cons, List.count_cons, count_goWait_send]
    simp
  · rw [h2, List.append_nil, on_when_off ws a h]
    show Effect.writes (ws.send _ _) = _
    rw [writes_send]
    rfl

/-- C8 (witness): the statement at `Hearing`, switched on for the first part
and as learnt (Off) for the second, on a connection that is down. -/
theorem on_is_noop_when_on_witness :
    ((hearing.on wsDown).1.on wsDown = ((hearing.on wsDown).1, [])) ∧
    (((hearing.on wsDown).1.on wsDown) = ((hearing.on wsDown).1, []) ∧
      ((hearing.on wsDown).1.on wsDown).1.t.isOn = true ∧
      ((hearing.on wsDown).1.on wsDown).1.t.launches = hearing.t.launches + 1 ∧
      Effect.toggledOn ((hearing.on wsDown).2 ++ ((hearing.on wsDown).1.on wsDown).2) =
        [hearing.name] ∧
      List.count (Effect.goWait hearing.name)
        ((hearing.on wsDown).2 ++ ((hearing.on wsDown).1.on wsDown).2) = 1 ∧
      Effect.writes ((hearing.on wsDown).2 ++ ((hearing.on wsDown).1.on wsDown).2) =
        [("ability.started", Payload.name hearing.name)]) :=
  ⟨on_is_noop_when_on.1 wsDown (hearing.on wsDown).1 (by decide),
    on_is_noop_when_on.2 wsDown hearing (by decide)⟩

/-- C9: `ability.off` does nothing when the controller reports Off: no call of
the controller's `off()`, no event, and `isOn()` stays false; so it is for an
ability that was never switched on. When the controller reports On,
`ability.off` calls the controller's `off()` once, which raises the
cancellation, and sends no event itself. -/
theorem off_is_noop_when_off :
    (∀ a : ability, a.t.isOn = false → a.off = (a, []) ∧ a.off.1.t.isOn = false) ∧
    (∀ (name : String) (r : Runner) (o : AbilityOptions),
      (newAbility name r o).off = (newAbility name r o, [])) ∧
    (∀ a : ability, a.t.isOn = true →
      a.off = ({ a with t := { a.t with cancels := a.t.cancels + 1 } },
        [Effect.toggleOff a.name]) ∧
      Effect.writes a.off.2 = []) := by
  refine ⟨?_, ?_, ?_⟩
  · intro a h
    simp [ability.off, h]
  · intro name r o
    rfl
  · intro a h
    have hs : a.t.state = true := h
    simp [ability.off, h, toggle.off, hs, Effect.writes]

/-- C9 (witness): the statement at `Hearing` as learnt (Off) and at `Hearing`
switched on. -/
theorem off_is_noop_when_off_witness :
    (hearing.off = (hearing, []) ∧ hearing.off.1.t.isOn = false) ∧
    ((hearing.on wsUp).1.off =
        ({ (hearing.on wsUp).1 with
            t := { (hearing.on wsUp).1.t with cancels := (hearing.on wsUp).1.t.cancels + 1 } },
          [Effect.toggleOff (hearing.on wsUp).1.name]) ∧
      Effect.writes (hearing.on wsUp).1.off.2 = []) :=
  ⟨off_is_noop_when_off.1 hearing (by decide),
    off_is_noop_when_off.2.2 (hearing.on wsUp).1 (by decide)⟩

end astibrain

/-! ## The aggregate state of the API (`server_clients.go`) -/

namespace astibob

theorem forEach_keeps_state {α σ : Type} (fn : α → σ → Exec σ) (l : List α) (s : σ)
    (hfn : ∀ a, (∃ msg, fn a s = Exec.panic msg) ∨ fn a s = Exec.done s none) :
    (∃ msg, forEach fn l s = Exec.panic msg) ∨ forEach fn l s = Exec.done s none := by
  induction l with
  | nil => exact Or.inr rfl
  | cons a rest ih =>
    rcases hfn a with ⟨msg, h⟩ | h
    · exact Or.inl ⟨msg, by simp [forEach, h]⟩
    · simpa [forEach, h] using ih

theorem handleAPIBobGET_writes_no_brain (bs : brains) :
    (∃ msg, handleAPIBobGET bs = Exec.panic msg) ∨
      handleAPIBobGET bs = Exec.done { Brains := some [] } none := by
  unfold handleAPIBobGET brains.brains
  have h := forEach_keeps_state handleAPIBobGET_brain
    (bs.b.entries.map (fun e => e.2)) ({ Brains := GoMap.make } : APIBob)
    (by
      intro b
      simp only [handleAPIBobGET_brain]
      cases hb : b.abilities handleAPIBobGET_ability { Abilities := none, Name := b.name } with
      | panic msg => exact Or.inl ⟨msg, rfl⟩
      | done s err => exact Or.inr rfl)
  rcases h with ⟨msg, h⟩ | h
  · left
    refine ⟨msg, ?_⟩
    simp only [h]
  · right
    simp only [h]
    rfl

/-- C10 (the code at the failing input): with one registered brain that has one
ability, `handleAPIBobGET` panics on the assignment into the nil map
`bd.Abilities` and writes nothing; with one registered brain without ability it
writes data whose `Brains` map is empty, the brain not being in it. -/
theorem handleAPIBobGET_panics_or_leaves_brains_out :
    handleAPIBobGET brainsWithHearing = Exec.panic "assignment to entry in nil map" ∧
    handleAPIBobGET brainsWithoutAbility = Exec.done { Brains := some [] } none := by
  decide

end astibob

/-! ## Shutdown of the brain (`brain/brain.go`) -/

namespace astibrain

theorem Close_wait_enough (isOn : Nat → Bool) (d : Nat) :
    ∀ j, isOn (j + d) = false →
      ∃ k, ∀ fuel, d < fuel → Brain.Close_wait isOn fuel j = some k := by
  induction d with
  | zero =>
    intro j hj
    refine ⟨j, fun fuel hfuel => ?_⟩
    obtain ⟨f, rfl⟩ : ∃ f, fuel = f + 1 := ⟨fuel - 1, by omega⟩
    simp only [Nat.add_zero] at hj
    simp [Brain.Close_wait, hj]
  | succ d ih =>
    intro j hj
    cases hjo : isOn j with
    | false =>
      refine ⟨j, fun fuel hfuel => ?_⟩
      obtain ⟨f, rfl⟩ : ∃ f, fuel = f + 1 := ⟨fuel - 1, by omega⟩
      simp [Brain.Close_wait, hjo]
    | true =>
      have hj1 : isOn (j + 1 + d) = false := by
        rw [← hj]
        congr 1
        omega
      obtain ⟨k, hk⟩ := ih (j + 1) hj1
      refine ⟨k, fun fuel hfuel => ?_⟩
      obtain ⟨f, rfl⟩ : ∃ f, fuel = f + 1 := ⟨fuel - 1, by omega⟩
      simp only [Brain.Close_wait, hjo, Bool.not_true, Bool.false_eq_true, if_false]
      exact hk f (by omega)

theorem toggledOff_append (l1 l2 : List Effect) :
    Effect.toggledOff (l1 ++ l2) = Effect.toggledOff l1 ++ Effect.toggledOff l2 := by
  induction l1 with
  | nil => rfl
  | cons x rest ih => cases x <;> simp [Effect.toggledOff, ih]

theorem closes_append (l1 l2 : List Effect) :
    Effect.closes (l1 ++ l2) = Effect.closes l1 ++ Effect.closes l2 := by
  induction l1 with
  | nil => rfl
  | cons x rest ih => cases x <;> simp [Effect.closes, ih]

theorem toggledOff_sleeps (k ms : Nat) :
    Effect.toggledOff (List.replicate k (Effect.sleep ms)) = [] := by
  induction k with
  | zero => rfl
  | succ k ih => simpa [List.replicate_succ, Effect.toggledOff] using ih

theorem closes_sleeps (k ms : Nat) :
    Effect.closes (List.replicate k (Effect.sleep ms)) = [] := by
  induction k with
  | zero => rfl
  | succ k ih => simpa [List.replicate_succ, Effect.closes] using ih

/-- What the callback of `Close` adds to the trace for the ability `a` when the
wait loop is left after `k` sleeps. -/
theorem Close_fn_effects (a : ability) (k : Nat) :
    ∃ eff : List Effect,
      eff = a.off.2 ++ List.replicate k (Effect.sleep 50) ++
        (match a.r.Close with
        | none => []
        | some none => [Effect.close a.name]
        | some (some e) =>
          [Effect.close a.name,
            Effect.logError
              (errorsWrap (some e) ("astibrain: closing ability " ++ a.name ++ " failed"))]) ∧
      Effect.toggledOff eff = (if a.t.isOn then [a.name] else []) ∧
      Effect.closes eff = (if a.r.Close.isSome then [a.name] else []) ∧
      Effect.wsClose ∉ eff := by
  refine ⟨_, rfl, ?_, ?_, ?_⟩
  · rw [toggledOff_append, toggledOff_append, toggledOff_sleeps]
    cases h : a.t.isOn <;> rcases hc : a.r.Close with _ | _ | e <;>
      simp [ability.off, h, Effect.toggledOff]
  · rw [closes_append, closes_append, closes_sleeps]
    cases h : a.t.isOn <;> rcases hc : a.r.Close with _ | _ | e <;>
      simp [ability.off, h, Effect.closes]
  · cases h : a.t.isOn <;> rcases hc : a.r.Close with _ | _ | e <;>
      simp [ability.off, h, List.mem_replicate]

theorem off_keeps_isOn (a : ability) : a.off.1.t.isOn = a.t.isOn := by
  cases h : a.t.isOn
  · simp [ability.off, h]
  · have hs : a.t.state = true := h
    simp [ability.off, h, toggle.off, toggle.isOn, hs]

theorem Close_loop (running : String → Nat → Bool) (l : List ability)
    (hoff : ∀ a ∈ l, a.t.isOn = true → ∃ k, running a.name k = false) :
    ∃ (fuel0 : Nat) (trl : List Effect),
      Effect.toggledOff trl = (l.filter (fun a => a.t.isOn)).map (fun a => a.name) ∧
      Effect.closes trl = (l.filter (fun a => a.r.Close.isSome)).map (fun a => a.name) ∧
      Effect.wsClose ∉ trl ∧
      ∀ fuel, fuel0 ≤ fuel → ∀ tr,
        abilities.loop (Brain.Close_fn running fuel) l (some tr) =
          Exec.done
            (l.map (fun a => { a.off.1 with t := { a.off.1.t with state := false } }),
              some (tr ++ trl))
            none := by
  induction l with
  | nil => exact ⟨0, [], rfl, rfl, by simp, fun fuel _ tr => by simp [abilities.loop]⟩
  | cons a rest ih =>
    have hex : ∃ k0, (a.off.1.t.isOn && running a.name k0) = false := by
      rw [off_keeps_isOn]
      cases h : a.t.isOn
      · exact ⟨0, rfl⟩
      · obtain ⟨k0, hk0⟩ := hoff a (List.mem_cons_self _ _) h
        exact ⟨k0, by simp [hk0]⟩
    obtain ⟨k0, hk0⟩ := hex
    obtain ⟨k, hk⟩ := Close_wait_enough (fun k => a.off.1.t.isOn && running a.name k) k0 0
      (by simpa using hk0)
    obtain ⟨fuel1, trl1, hoff1, hcl1, hws1, hloop1⟩ :=
      ih (fun x hx => hoff x (List.mem_cons_of_mem _ hx))
    obtain ⟨eff, heff, hoffa, hcla, hwsa⟩ := Close_fn_effects a k
    refine ⟨max (k0 + 1) fuel1, eff ++ trl1, ?_, ?_, ?_, ?_⟩
    · rw [toggledOff_append, hoffa, hoff1]
      cases h : a.t.isOn <;> simp [h]
    · rw [closes_append, hcla, hcl1]
      cases h : a.r.Close.isSome <;> simp [h]
    · intro hmem
      rcases List.mem_append.1 hmem with h1 | h1
      · exact hwsa h1
      · exact hws1 h1
    · intro fuel hfuel tr
      have hw : Brain.Close_wait (fun k => a.off.1.t.isOn && running a.name k) fuel 0 =
          some k := hk fuel (by omega)
      have hfn : Brain.Close_fn running fuel a (some tr) =
          Exec.done ({ a.off.1 with t := { a.off.1.t with state := false } },
            some (tr ++ eff)) none := by
        simp only [Brain.Close_fn, hw, heff, List.append_assoc]
      rw [abilities.loop, hfn]
      simp only []
      rw [hloop1 fuel (by omega) (tr ++ eff)]
      simp

/-- C11: for every registry in which the controller of each ability that is on
eventually reports Off after `off()` (an ability that is off reports Off), for
every outcome of the `Close` of the runnables and of the websocket client,
`Close` returns (with enough fuel for the wait loops) after having applied
`off()` to every ability, which calls the controller's `off()` of those that
are on, and after having called the `Close` of the runnable of every ability
that has one, in the order of the registry, whatever these calls return; the
websocket is closed last; the error returned is non-nil if and only if the
`Close` of the websocket client failed. -/
theorem Close_returns_only_connector_error (running : String → Nat → Bool)
    (cClose : Option GoError) (b : Brain)
    (hoff : ∀ a ∈ b.abilities.a, a.t.isOn = true → ∃ k, running a.name k = false) :
    ∃ (fuel0 : Nat) (tr : List Effect) (err : Option GoError),
      (∀ fuel, fuel0 ≤ fuel →
        Brain.Close running cClose fuel b =
          some (Exec.done
            ({ a := b.abilities.a.map
                (fun a => { a.off.1 with t := { a.off.1.t with state := false } }) },
              tr ++ [Effect.wsClose])
            err)) ∧
      Effect.toggledOff tr =
        (b.abilities.a.filter (fun a => a.t.isOn)).map (fun a => a.name) ∧
      Effect.closes tr =
        (b.abilities.a.filter (fun a => a.r.Close.isSome)).map (fun a => a.name) ∧
      Effect.wsClose ∉ tr ∧
      (err ≠ none ↔ cClose ≠ none) := by
  obtain ⟨fuel0, trl, h1, h2, h3, hloop⟩ := Close_loop running b.abilities.a hoff
  refine ⟨fuel0, trl, errorsWrap (webSocket.Close cClose) "astibrain: closing websocket failed",
    ?_, h1, h2, h3, ?_⟩
  · intro fuel hfuel
    simp only [Brain.Close, abilities.abilities, hloop fuel hfuel [], List.nil_append]
  · cases cClose <;> simp [webSocket.Close, errorsWrap]

/-- C11 (witness): the statement at the brain of `Listening` (on, its `Close`
fails), `Recording` and `Speaking` (both off), with tasks whose completion is
processed during the second sleep and a websocket client whose `Close`
fails. -/
theorem Close_returns_only_connector_error_witness :
    (∀ a ∈ brainListening.abilities.a, a.t.isOn = true →
      ∃ k, runningTwoSleeps a.name k = false) ∧
    ∃ (fuel0 : Nat) (tr : List Effect) (err : Option GoError),
      (∀ fuel, fuel0 ≤ fuel →
        Brain.Close runningTwoSleeps (some (GoError.new "close: broken pipe")) fuel
            brainListening =
          some (Exec.done
            ({ a := brainListening.abilities.a.map
                (fun a => { a.off.1 with t := { a.off.1.t with state := false } }) },
              tr ++ [Effect.wsClose])
            err)) ∧
      Effect.toggledOff tr =
        (brainListening.abilities.a.filter (fun a => a.t.isOn)).map (fun a => a.name) ∧
      Effect.closes tr =
        (brainListening.abilities.a.filter (fun a => a.r.Close.isSome)).map
          (fun a => a.name) ∧
      Effect.wsClose ∉ tr ∧
      (err ≠ none ↔ (some (GoError.new "close: broken pipe") : Option GoError) ≠ none) :=
  ⟨fun _ _ _ => ⟨2, rfl⟩,
    Close_returns_only_connector_error runningTwoSleeps
      (some (GoError.new "close: broken pipe")) brainListening (fun _ _ _ => ⟨2, rfl⟩)⟩

theorem Close_brainListening :
    Brain.Close runningTwoSleeps none 3 brainListening =
      some (Exec.done
        ({ a := [{ listening with t := { state := false, launches := 1, cancels := 1 } },
            recording, speaking] },
          [Effect.toggleOff "Listening", Effect.sleep 50, Effect.sleep 50,
            Effect.close "Listening",
            Effect.logError (some (GoError.wrap (GoError.new "portaudio: stream is busy")
              "astibrain: closing ability Listening failed")),
            Effect.close "Recording", Effect.wsClose])
        none) ∧
    Brain.Close runningTwoSleeps none 2 brainListening = none := by
  decide

end astibrain

/-! ## The connect loop (`brain/websocket.go`) -/

namespace astibrain

theorem sendRegister_loop_done (name : String) (l : List ability)
    (acc : List (String × WebSocketAbility)) :
    ∃ acc1, abilities.loop webSocket.sendRegister_fn l { Abilities := some acc, Name := name } =
      Exec.done (l, { Abilities := some acc1, Name := name }) none := by
  induction l generalizing acc with
  | nil => exact ⟨acc, rfl⟩
  | cons a rest ih =>
    obtain ⟨acc1, h⟩ := ih (GoMap.setEntry a.name { IsOn := a.t.isOn, Name := a.name } acc)
    refine ⟨acc1, ?_⟩
    have hfn : webSocket.sendRegister_fn a { Abilities := some acc, Name := name } =
        Exec.done
          (a, { Abilities := some (GoMap.setEntry a.name { IsOn := a.t.isOn, Name := a.name } acc),
                Name := name })
          none := rfl
    rw [abilities.loop, hfn]
    simp only []
    rw [h]

theorem sendRegister_done (ws : webSocket) (as : abilities) (name : String) :
    ∃ p : WebSocketRegister,
      ws.sendRegister as name =
        Exec.done (as, [Effect.write WebsocketEventNameRegister (Payload.register p)])
          (errorsWrap (ws.c WebsocketEventNameRegister (Payload.register p))
            "astibrain: sending register event failed") := by
  obtain ⟨acc1, h⟩ := sendRegister_loop_done name as.a []
  refine ⟨{ Abilities := some acc1, Name := name }, ?_⟩
  simp only [webSocket.sendRegister, webSocket.sendRegister_payload, abilities.abilities,
    GoMap.make, h]

theorem dial_pass_shape (ws : webSocket) (o : DialOutcomes) (as : abilities) (name : String) :
    ∃ p : WebSocketRegister,
      ws.dial_pass o as name =
        Exec.done
          (Effect.dial ws.o.URL ::
            match o.Dial with
            | some e =>
              [Effect.logError (some (GoError.wrap e "astibrain: dialing websocket failed")),
                Effect.sleep 5000]
            | none =>
              Effect.write "register" (Payload.register p) ::
                match o.Write with
                | some e =>
                  [Effect.logError (some (GoError.wrap
                      (GoError.wrap e "astibrain: sending register event failed")
                      "astibrain: sending register websocket event failed")),
                    Effect.sleep 5000]
                | none =>
                  Effect.read ::
                    match o.Read with
                    | some e =>
                      [Effect.logError
                          (some (GoError.wrap e "astibrain: reading websocket failed")),
                        Effect.sleep 5000]
                    | none => [])
          none := by
  obtain ⟨p, hp⟩ := sendRegister_done { ws with c := fun _ _ => o.Write } as name
  refine ⟨p, ?_⟩
  rcases hd : o.Dial with _ | e
  · simp only [webSocket.dial_pass, hd]
    rw [hp]
    rcases hw : o.Write with _ | e
    · rcases hr : o.Read with _ | e
      · simp [errorsWrap, WebsocketEventNameRegister]
      · simp [errorsWrap, WebsocketEventNameRegister, sleepError]
    · simp [errorsWrap, WebsocketEventNameRegister, sleepError]
  · simp [webSocket.dial_pass, hd, errorsWrap, sleepError]

theorem dial_never_panics (ws : webSocket) (env : Nat → DialOutcomes) (as : abilities)
    (name : String) (fuel i : Nat) :
    ∃ tr returned, ws.dial env as name fuel i = Exec.done (tr, returned) none := by
  induction fuel generalizing i with
  | zero => exact ⟨[], false, rfl⟩
  | succ fuel ih =>
    cases hc : (env i).ctxErr
    · obtain ⟨p, hp⟩ := dial_pass_shape ws (env i) as name
      obtain ⟨rest, returned, hrest⟩ := ih (i + 1)
      rw [webSocket.dial]
      simp only [hc, hp, hrest, Bool.false_eq_true, if_false]
      exact ⟨_, _, rfl⟩
    · exact ⟨[], true, by simp [webSocket.dial, hc]⟩

theorem dial_returns_at_head (ws : webSocket) (env : Nat → DialOutcomes) (as : abilities)
    (name : String) (fuel : Nat) :
    ∀ i tr, ws.dial env as name fuel i = Exec.done (tr, true) none →
      ∃ n, i ≤ n ∧ n < i + fuel ∧ (env n).ctxErr = true ∧
        ∀ j, i ≤ j → j < n → (env j).ctxErr = false := by
  induction fuel with
  | zero =>
    intro i tr h
    simp [webSocket.dial] at h
  | succ fuel ih =>
    intro i tr h
    cases hc : (env i).ctxErr
    · obtain ⟨p, hp⟩ := dial_pass_shape ws (env i) as name
      obtain ⟨rest, returned, hrest⟩ := dial_never_panics ws env as name fuel (i + 1)
      rw [webSocket.dial] at h
      simp only [hc, hp, hrest, Bool.false_eq_true, if_false] at h
      have hret : returned = true := by
        injection h with h1 _
        exact (Prod.mk.inj h1).2
      subst hret
      obtain ⟨n, hn1, hn2, hn3, hn4⟩ := ih (i + 1) rest hrest
      refine ⟨n, by omega, by omega, hn3, ?_⟩
      intro j hj1 hj2
      by_cases hji : j = i
      · subst hji
        exact hc
      · exact hn4 j (by omega) hj2
    · exact ⟨i, Nat.le_refl _, by omega, hc, fun j hj1 hj2 => absurd hj1 (by omega)⟩

theorem dial_pass_with_read_error (ws : webSocket) (o : DialOutcomes) (as : abilities)
    (name : String) (hread : o.Read ≠ none) :
    ∃ (p : WebSocketRegister) (pass : List Effect),
      ws.dial_pass o as name = Exec.done pass none ∧
      pass =
        (Effect.dial ws.o.URL ::
          match o.Dial with
          | some e =>
            [Effect.logError (some (GoError.wrap e "astibrain: dialing websocket failed")),
              Effect.sleep 5000]
          | none =>
            Effect.write "register" (Payload.register p) ::
              match o.Write with
              | some e =>
                [Effect.logError (some (GoError.wrap
                    (GoError.wrap e "astibrain: sending register event failed")
                    "astibrain: sending register websocket event failed")),
                  Effect.sleep 5000]
              | none =>
                [Effect.read,
                  Effect.logError (errorsWrap o.Read "astibrain: reading websocket failed"),
                  Effect.sleep 5000]) ∧
      (Effect.write "register" (Payload.register p) ∈ pass ↔ o.Dial = none) ∧
      (Effect.read ∈ pass ↔ o.Dial = none ∧ o.Write = none) ∧
      pass.head? = some (Effect.dial ws.o.URL) ∧
      pass.count (Effect.dial ws.o.URL) = 1 ∧
      pass.count (Effect.sleep 5000) = 1 ∧
      pass.getLast? = some (Effect.sleep 5000) := by
  obtain ⟨p, hp⟩ := dial_pass_shape ws o as name
  refine ⟨p, _, hp, ?_⟩
  rcases hd : o.Dial with _ | e
  · rcases hw : o.Write with _ | e
    · rcases hr : o.Read with _ | e
      · exact absurd hr hread
      · simp [errorsWrap, List.count_cons]
    · simp [List.count_cons]
  · simp [List.count_cons]

/-- C12: in the connect loop `dial`, for every sequence of outcomes of the
connection attempt, of the register send and of the read loop, the read loop
ending with an error (connection error or close): a context that is cancelled
at the head of a pass ends the loop there, with no connection attempt (so a
context already cancelled on entry gives none at all), and the loop ends nowhere
else; in a pass that is not ended at the head the connection is attempted
once, the register event is written only after a successful connection, the
read loop is entered only after a successful register send, and the failed
connection attempt, the failed register send or the end of the read loop is
followed by one sleep of 5 seconds, the last thing done in the pass, before the
connection attempt of the next pass. -/
theorem dial_sleeps_before_retry (ws : webSocket) (env : Nat → DialOutcomes)
    (as : abilities) (name : String) (hread : ∀ i, (env i).Read ≠ none) :
    (∀ fuel i, (env i).ctxErr = true →
      ws.dial env as name (fuel + 1) i = Exec.done ([], true) none) ∧
    (∀ fuel i tr, ws.dial env as name fuel i = Exec.done (tr, true) none →
      ∃ n, i ≤ n ∧ n < i + fuel ∧ (env n).ctxErr = true ∧
        ∀ j, i ≤ j → j < n → (env j).ctxErr = false) ∧
    (∀ fuel i, (env i).ctxErr = false →
      ∃ (p : WebSocketRegister) (pass rest : List Effect) (returned : Bool),
        ws.dial env as name fuel (i + 1) = Exec.done (rest, returned) none ∧
        ws.dial env as name (fuel + 1) i = Exec.done (pass ++ rest, returned) none ∧
        pass =
          (Effect.dial ws.o.URL ::
            match (env i).Dial with
            | some e =>
              [Effect.logError (some (GoError.wrap e "astibrain: dialing websocket failed")),
                Effect.sleep 5000]
            | none =>
              Effect.write "register" (Payload.register p) ::
                match (env i).Write with
                | some e =>
                  [Effect.logError (some (GoError.wrap
                      (GoError.wrap e "astibrain: sending register event failed")
                      "astibrain: sending register websocket event failed")),
                    Effect.sleep 5000]
                | none =>
                  [Effect.read,
                    Effect.logError
                      (errorsWrap (env i).Read "astibrain: reading websocket failed"),
                    Effect.sleep 5000]) ∧
        (Effect.write "register" (Payload.register p) ∈ pass ↔ (env i).Dial = none) ∧
        (Effect.read ∈ pass ↔ (env i).Dial = none ∧ (env i).Write = none) ∧
        pass.head? = some (Effect.dial ws.o.URL) ∧
        pass.count (Effect.dial ws.o.URL) = 1 ∧
        pass.count (Effect.sleep 5000) = 1 ∧
        pass.getLast? = some (Effect.sleep 5000)) := by
  refine ⟨?_, ?_, ?_⟩
  · intro fuel i hc
    simp [webSocket.dial, hc]
  · intro fuel i tr h
    exact dial_returns_at_head ws env as name fuel i tr h
  · intro fuel i hc
    obtain ⟨p, pass, hpass, hshape, h1, h2, h3, h4, h5, h6⟩ :=
      dial_pass_with_read_error ws (env i) as name (hread i)
    obtain ⟨rest, returned, hrest⟩ := dial_never_panics ws env as name fuel (i + 1)
    refine ⟨p, pass, rest, returned, hrest, ?_, hshape, h1, h2, h3, h4, h5, h6⟩
    rw [webSocket.dial]
    simp only [hc, hpass, hrest, Bool.false_eq_true, if_false]

theorem envReconnect_read (i : Nat) : (envReconnect i).Read ≠ none := by
  unfold envReconnect
  split
  · simp
  · split
    · simp
    · split <;> simp

theorem dial_envReconnect :
    wsBob.dial envReconnect { a := [hearing] } "brain" 4 0 =
      Exec.done
        ([Effect.dial "ws://127.0.0.1:6970/websocket",
            Effect.write "register" (Payload.register
              { Abilities := some [("Hearing", { IsOn := false, Name := "Hearing" })],
                Name := "brain" }),
            Effect.read,
            Effect.logError (some (GoError.wrap
              (GoError.new "websocket: close 1006 (abnormal closure)")
              "astibrain: reading websocket failed")),
            Effect.sleep 5000,
            Effect.dial "ws://127.0.0.1:6970/websocket",
            Effect.logError (some (GoError.wrap (GoError.new "dial tcp: connection refused")
              "astibrain: dialing websocket failed")),
            Effect.sleep 5000,
            Effect.dial "ws://127.0.0.1:6970/websocket",
            Effect.write "register" (Payload.register
              { Abilities := some [("Hearing", { IsOn := false, Name := "Hearing" })],
                Name := "brain" }),
            Effect.logError (some (GoError.wrap
              (GoError.wrap (GoError.new "write: broken pipe")
                "astibrain: sending register event failed")
              "astibrain: sending register websocket event failed")),
            Effect.sleep 5000],
          true)
        none := by
  decide

/-- C12 (witness): the statement at the environment in which the read loop of
the pass 0 ends because the connection is closed, the connection attempt of the
pass 1 fails, the register send of the pass 2 fails and the context is
cancelled at the head of the pass 3. -/
theorem dial_sleeps_before_retry_witness :
    (∀ i, (envReconnect i).Read ≠ none) ∧
    (∀ fuel i, (envReconnect i).ctxErr = true →
      wsBob.dial envReconnect { a := [hearing] } "brain" (fuel + 1) i =
        Exec.done ([], true) none) ∧
    (∀ fuel i tr,
      wsBob.dial envReconnect { a := [hearing] } "brain" fuel i = Exec.done (tr, true) none →
      ∃ n, i ≤ n ∧ n < i + fuel ∧ (envReconnect n).ctxErr = true ∧
        ∀ j, i ≤ j → j < n → (envReconnect j).ctxErr = false) ∧
    (∀ fuel i, (envReconnect i).ctxErr = false →
      ∃ (p : WebSocketRegister) (pass rest : List Effect) (returned : Bool),
        wsBob.dial envReconnect { a := [hearing] } "brain" fuel (i + 1) =
          Exec.done (rest, returned) none ∧
        wsBob.dial envReconnect { a := [hearing] } "brain" (fuel + 1) i =
          Exec.done (pass ++ rest, returned) none ∧
        pass =
          (Effect.dial wsBob.o.URL ::
            match (envReconnect i).Dial with
            | some e =>
              [Effect.logError (some (GoError.wrap e "astibrain: dialing websocket failed")),
                Effect.sleep 5000]
            | none =>
              Effect.write "register" (Payload.register p) ::
                match (envReconnect i).Write with
                | some e =>
                  [Effect.logError (some (GoError.wrap
                      (GoError.wrap e "astibrain: sending register event failed")
                      "astibrain: sending register websocket event failed")),
                    Effect.sleep 5000]
                | none =>
                  [Effect.read,
                    Effect.logError
                      (errorsWrap (envReconnect i).Read "astibrain: reading websocket failed"),
                    Effect.sleep 5000]) ∧
        (Effect.write "register" (Payload.register p) ∈ pass ↔ (envReconnect i).Dial = none) ∧
        (Effect.read ∈ pass ↔ (envReconnect i).Dial = none ∧ (envReconnect i).Write = none) ∧
        pass.head? = some (Effect.dial wsBob.o.URL) ∧
        pass.count (Effect.dial wsBob.o.URL) = 1 ∧
        pass.count (Effect.sleep 5000) = 1 ∧
        pass.getLast? = some (Effect.sleep 5000)) :=
  ⟨envReconnect_read,
    dial_sleeps_before_retry wsBob envReconnect { a := [hearing] } "brain" envReconnect_read⟩

end astibrain

/-! ## The key is normalized (`ability.go`) -/

namespace astibob

theorem isWordChar_of_isKeyChar (c : Char) (hk : isKeyChar c = true) (hc : c.toNat ≠ 45) :
    isWordChar c = true := by
  simp only [isKeyChar, isWordChar, Bool.or_eq_true, Bool.and_eq_true, decide_eq_true_eq,
    beq_iff_eq] at hk ⊢
  omega

theorem hyphen_of_isKeyChar (c : Char) (hk : isKeyChar c = true) (hw : isWordChar c = false) :
    c.toNat = 45 := by
  by_contra hc
  rw [isWordChar_of_isKeyChar c hk hc] at hw
  exact absurd hw (by decide)

theorem isWordChar_hyphen (c : Char) (hc : c.toNat = 45) : isWordChar c = false := by
  simp [isWordChar, hc]

theorem unicodeToLower_isKeyChar (caseTable : Char → Char) (c : Char)
    (hk : isKeyChar c = true) : unicodeToLower caseTable c = c := by
  simp only [isKeyChar, Bool.or_eq_true, Bool.and_eq_true, decide_eq_true_eq,
    beq_iff_eq] at hk
  have h1 : c.toNat < 128 := by omega
  have h2 : ¬ (65 ≤ c.toNat ∧ c.toNat ≤ 90) := by omega
  simp [unicodeToLower, h1, h2]

theorem toNat_ofNat_upper (n : Nat) (h1 : 65 ≤ n) (h2 : n ≤ 90) :
    (Char.ofNat (n + 32)).toNat = n + 32 := by
  interval_cases n <;> decide

theorem unicodeToLower_word (caseTable : Char → Char)
    (htable : ∀ c : Char, 128 ≤ c.toNat →
      ¬ (65 ≤ (caseTable c).toNat ∧ (caseTable c).toNat ≤ 90))
    (c : Char) (hw : isWordChar (unicodeToLower caseTable c) = true) :
    isKeyChar (unicodeToLower caseTable c) = true := by
  unfold unicodeToLower at hw ⊢
  by_cases h1 : c.toNat < 128
  · by_cases h2 : 65 ≤ c.toNat ∧ c.toNat ≤ 90
    · simp only [h1, h2, if_true, and_self] at hw ⊢
      simp only [isKeyChar, toNat_ofNat_upper c.toNat h2.1 h2.2, Bool.or_eq_true,
        Bool.and_eq_true, decide_eq_true_eq, beq_iff_eq]
      omega
    · simp only [h1, h2, if_true, if_false] at hw ⊢
      simp only [isKeyChar, isWordChar, Bool.or_eq_true, Bool.and_eq_true, decide_eq_true_eq,
        beq_iff_eq] at hw ⊢
      omega
  · simp only [h1, if_false] at hw ⊢
    have ht := htable c (by omega)
    simp only [isKeyChar, isWordChar, Bool.or_eq_true, Bool.and_eq_true, decide_eq_true_eq,
      beq_iff_eq] at hw ⊢
    omega

theorem skipNonWord_head (cs : List Char) (d : Char) (ds : List Char)
    (h : skipNonWord cs = d :: ds) : isWordChar d = true := by
  induction cs with
  | nil => simp [skipNonWord] at h
  | cons x xs ih =>
    unfold skipNonWord at h ih
    rw [List.dropWhile_cons] at h
    cases hx : isWordChar x
    · simp only [hx, Bool.not_false, if_true] at h
      exact ih h
    · simp only [hx, Bool.not_true, Bool.false_eq_true, if_false] at h
      injection h with h1 _
      rw [← h1]
      exact hx

theorem skipNonWord_mem (cs : List Char) (c : Char) (h : c ∈ skipNonWord cs) : c ∈ cs :=
  (List.dropWhile_sublist _).subset h

theorem replaceAll_word (c : Char) (cs : List Char) (hc : isWordChar c = true) :
    regexpAbilityKey_ReplaceAllString ['-'] (c :: cs) =
      c :: regexpAbilityKey_ReplaceAllString ['-'] cs := by
  rw [regexpAbilityKey_ReplaceAllString, if_pos hc]

theorem replaceAll_nonWord (c : Char) (cs : List Char) (hc : isWordChar c = false) :
    regexpAbilityKey_ReplaceAllString ['-'] (c :: cs) =
      '-' :: regexpAbilityKey_ReplaceAllString ['-'] (skipNonWord cs) := by
  rw [regexpAbilityKey_ReplaceAllString, if_neg (by simp [hc])]
  rfl

theorem replaceAll_normal (s : List Char)
    (hs : ∀ c ∈ s, isWordChar c = true → isKeyChar c = true) :
    (∀ c ∈ regexpAbilityKey_ReplaceAllString ['-'] s, isKeyChar c = true) ∧
    (regexpAbilityKey_ReplaceAllString ['-'] s).Chain'
      (fun a b => ¬ (a.toNat = 45 ∧ b.toNat = 45)) := by
  induction s using regexpAbilityKey_ReplaceAllString.induct ['-'] with
  | case1 => simp [regexpAbilityKey_ReplaceAllString]
  | case2 c cs hc ih =>
    have ih1 := ih (fun x hx => hs x (List.mem_cons_of_mem _ hx))
    rw [replaceAll_word c cs hc]
    have hkc : isKeyChar c = true := hs c (List.mem_cons_self _ _) hc
    refine ⟨?_, ?_⟩
    · intro x hx
      rcases List.mem_cons.1 hx with h | h
      · rw [h]
        exact hkc
      · exact ih1.1 x h
    · rw [List.chain'_cons']
      refine ⟨?_, ih1.2⟩
      intro y _ hy
      rw [isWordChar_hyphen c hy.1] at hc
      exact absurd hc (by decide)
  | case3 c cs hc ih =>
    have hc1 : isWordChar c = false := by simpa using hc
    have ih1 := ih (fun x hx => hs x (List.mem_cons_of_mem _ (skipNonWord_mem cs x hx)))
    rw [replaceAll_nonWord c cs hc1]
    refine ⟨?_, ?_⟩
    · intro x hx
      rcases List.mem_cons.1 hx with h | h
      · rw [h]
        decide
      · exact ih1.1 x h
    · rw [List.chain'_cons']
      refine ⟨?_, ih1.2⟩
      intro y hy hyy
      cases hsk : skipNonWord cs with
      | nil =>
        rw [hsk] at hy
        simp [regexpAbilityKey_ReplaceAllString] at hy
      | cons d ds =>
        have hd : isWordChar d = true := skipNonWord_head cs d ds hsk
        rw [hsk, replaceAll_word d ds hd] at hy
        simp only [List.head?_cons, Option.mem_def, Option.some.injEq] at hy
        subst hy
        rw [isWordChar_hyphen d hyy.2] at hd
        exact absurd hd (by decide)

theorem replaceAll_fixed (l : List Char) (hk : ∀ c ∈ l, isKeyChar c = true)
    (hch : l.Chain' (fun a b => ¬ (a.toNat = 45 ∧ b.toNat = 45))) :
    regexpAbilityKey_ReplaceAllString ['-'] l = l := by
  induction l with
  | nil => simp [regexpAbilityKey_ReplaceAllString]
  | cons c cs ih =>
    have hkcs : ∀ x ∈ cs, isKeyChar x = true := fun x hx => hk x (List.mem_cons_of_mem _ hx)
    rw [List.chain'_cons'] at hch
    have ih1 := ih hkcs hch.2
    cases hc : isWordChar c
    · have h45 : c.toNat = 45 := hyphen_of_isKeyChar c (hk c (List.mem_cons_self _ _)) hc
      have hcc : c = '-' := by
        apply Char.ext
        apply UInt32.ext
        simpa [Char.toNat] using h45
      have hskip : skipNonWord cs = cs := by
        cases cs with
        | nil => rfl
        | cons d ds =>
          have hd45 : d.toNat ≠ 45 := fun hd => hch.1 d rfl ⟨h45, hd⟩
          have hdw : isWordChar d = true :=
            isWordChar_of_isKeyChar d (hkcs d (List.mem_cons_self _ _)) hd45
          simp [skipNonWord, List.dropWhile_cons, hdw]
      rw [replaceAll_nonWord c cs hc, hskip, ih1, hcc]
    · rw [replaceAll_word c cs hc, ih1]

theorem stringsToLower_fixed (caseTable : Char → Char) (l : List Char)
    (hk : ∀ c ∈ l, isKeyChar c = true) : stringsToLower caseTable l = l := by
  induction l with
  | nil => rfl
  | cons c cs ih =>
    simp only [stringsToLower, List.map_cons] at ih ⊢
    rw [unicodeToLower_isKeyChar caseTable c (hk c (List.mem_cons_self _ _)),
      ih (fun x hx => hk x (List.mem_cons_of_mem _ hx))]

theorem caseTableKelvin_no_upper (c : Char) (hc : 128 ≤ c.toNat) :
    ¬ (65 ≤ (caseTableKelvin c).toNat ∧ (caseTableKelvin c).toNat ≤ 90) := by
  unfold caseTableKelvin
  split
  · decide
  · split
    · decide
    · omega

/-- C13: when the case table of `unicode.ToLower` gives no ASCII uppercase
letter for a rune above ASCII, for every name every character of
`abilityKey(name)` is a lowercase ASCII letter, an ASCII digit, an underscore or
a hyphen, `abilityKey(name)` has no two consecutive hyphens, and
`abilityKey(abilityKey(name)) = abilityKey(name)`; the map is not injective:
the distinct names `a b` and `a-b` have the same key. -/
theorem abilityKey_idempotent (caseTable : Char → Char)
    (htable : ∀ c : Char, 128 ≤ c.toNat →
      ¬ (65 ≤ (caseTable c).toNat ∧ (caseTable c).toNat ≤ 90)) :
    (∀ name : String,
      (∀ c ∈ (abilityKey caseTable name).data,
        (97 ≤ c.toNat ∧ c.toNat ≤ 122) ∨ (48 ≤ c.toNat ∧ c.toNat ≤ 57) ∨ c = '_' ∨ c = '-') ∧
      ¬ (['-', '-'] <:+: (abilityKey caseTable name).data) ∧
      abilityKey caseTable (abilityKey caseTable name) = abilityKey caseTable name) ∧
    (("a b" : String) ≠ "a-b" ∧ abilityKey caseTable "a b" = abilityKey caseTable "a-b") := by
  refine ⟨fun name => ?_, by decide, ?_⟩
  · have hnorm := replaceAll_normal (stringsToLower caseTable name.data) (by
      intro c hc hw
      simp only [stringsToLower, List.mem_map] at hc
      obtain ⟨c0, _, rfl⟩ := hc
      exact unicodeToLower_word caseTable htable c0 hw)
    have hdata : (abilityKey caseTable name).data =
        regexpAbilityKey_ReplaceAllString ['-'] (stringsToLower caseTable name.data) := rfl
    refine ⟨?_, ?_, ?_⟩
    · intro c hc
      rw [hdata] at hc
      have hk := hnorm.1 c hc
      simp only [isKeyChar, Bool.or_eq_true, Bool.and_eq_true, decide_eq_true_eq,
        beq_iff_eq] at hk
      rcases hk with ((h | h) | h) | h
      · exact Or.inl h
      · exact Or.inr (Or.inl h)
      · refine Or.inr (Or.inr (Or.inl ?_))
        apply Char.ext
        apply UInt32.ext
        simpa [Char.toNat] using h
      · refine Or.inr (Or.inr (Or.inr ?_))
        apply Char.ext
        apply UInt32.ext
        simpa [Char.toNat] using h
    · intro hinf
      rw [hdata] at hinf
      obtain ⟨s, t, hst⟩ := hinf
      have hch := hnorm.2
      rw [← hst, List.append_assoc] at hch
      have hch := hch.right_of_append.left_of_append
      rw [List.chain'_cons] at hch
      exact hch.1 ⟨by decide, by decide⟩
    · show String.mk (regexpAbilityKey_ReplaceAllString ['-']
          (stringsToLower caseTable (abilityKey caseTable name).data)) = abilityKey caseTable name
      rw [hdata, stringsToLower_fixed caseTable _ hnorm.1, replaceAll_fixed _ hnorm.1 hnorm.2]
      rfl
  · simp [abilityKey, regexpAbilityKey_ReplaceAllString, stringsToLower, unicodeToLower,
      isWordChar, skipNonWord]

/-- C13 (witness): the statement for the case table that sends the Kelvin sign
to `k`, the capital I with dot above to `i` and leaves the other runes above
ASCII in place. -/
theorem abilityKey_idempotent_witness :
    (∀ c : Char, 128 ≤ c.toNat →
      ¬ (65 ≤ (caseTableKelvin c).toNat ∧ (caseTableKelvin c).toNat ≤ 90)) ∧
    (∀ name : String,
      (∀ c ∈ (abilityKey caseTableKelvin name).data,
        (97 ≤ c.toNat ∧ c.toNat ≤ 122) ∨ (48 ≤ c.toNat ∧ c.toNat ≤ 57) ∨ c = '_' ∨ c = '-') ∧
      ¬ (['-', '-'] <:+: (abilityKey caseTableKelvin name).data) ∧
      abilityKey caseTableKelvin (abilityKey caseTableKelvin name) =
        abilityKey caseTableKelvin name) ∧
    (("a b" : String) ≠ "a-b" ∧
      abilityKey caseTableKelvin "a b" = abilityKey caseTableKelvin "a-b") :=
  ⟨caseTableKelvin_no_upper, abilityKey_idempotent caseTableKelvin caseTableKelvin_no_upper⟩

end astibob
